import Mathlib

/-!
# Verification of the `edr_eth` transaction codec, signing and hashing logic

Shallow embedding of `crates/edr_eth/src/transaction/{request,signed}/{eip155,eip4844}.rs`
together with models of the external `alloy_rlp` canonical encoding, the Keccak-256
hash primitive, and the repository's `signature` / `fake_signature` modules (which are
not part of the excerpted sources and are therefore modelled from the specification).

Bytes are modelled as `Nat` values `< 256`, machine integers (`u64`, `U256`) as `Nat`
with explicit bounds or `% 2^w` wrapping where the Rust code can wrap.
-/

namespace Edr

/-! ## Big-endian minimal byte strings (the scalar representation used by RLP) -/

/-- Big-endian minimal byte representation of `n`, computed with explicit fuel so that
it reduces in the kernel.  `beBytesAux fuel n` is correct whenever `n < 256 ^ fuel`. -/
def beBytesAux : Nat → Nat → List Nat
  | 0, _ => []
  | fuel + 1, n => if n = 0 then [] else beBytesAux fuel (n / 256) ++ [n % 256]

/-- Big-endian minimal byte representation for values below `2 ^ 512`
(covers `u64`, `U256` and all byte-string lengths appearing in this development). -/
def beBytes (n : Nat) : List Nat := beBytesAux 64 n

/-- Big-endian interpretation of a byte string as a natural number. -/
def decBE (b : List Nat) : Nat := b.foldl (fun acc x => acc * 256 + x) 0

theorem decBE_foldl (acc : Nat) (b : List Nat) :
    b.foldl (fun a x => a * 256 + x) acc = acc * 256 ^ b.length + decBE b := by
  induction b generalizing acc with
  | nil => simp [decBE]
  | cons x tl ih =>
    simp only [List.foldl_cons, List.length_cons]
    rw [ih (acc * 256 + x)]
    have hx : decBE (x :: tl) = x * 256 ^ tl.length + decBE tl := by
      simp only [decBE, List.foldl_cons]
      rw [show (0 : Nat) * 256 + x = x by ring]
      have := ih x
      simpa [decBE] using this
    rw [hx]
    ring

theorem decBE_append (a b : List Nat) :
    decBE (a ++ b) = decBE a * 256 ^ b.length + decBE b := by
  simp only [decBE, List.foldl_append]
  exact decBE_foldl _ b

theorem beBytesAux_eq_nil (fuel n : Nat) : beBytesAux fuel n = [] ↔ fuel = 0 ∨ n = 0 := by
  cases fuel with
  | zero => simp [beBytesAux]
  | succ k =>
    simp only [beBytesAux]
    by_cases h : n = 0 <;> simp [h]

theorem beBytesAux_lt (fuel : Nat) : ∀ (n : Nat), ∀ x ∈ beBytesAux fuel n, x < 256 := by
  induction fuel with
  | zero => simp [beBytesAux]
  | succ k ih =>
    intro n x hx
    simp only [beBytesAux] at hx
    by_cases h : n = 0
    · simp [h] at hx
    · rw [if_neg h] at hx
      rcases List.mem_append.mp hx with h1 | h2
      · exact ih _ _ h1
      · simp only [List.mem_singleton] at h2
        subst h2
        exact Nat.mod_lt _ (by norm_num)

theorem decBE_beBytesAux (fuel : Nat) : ∀ (n : Nat), n < 256 ^ fuel →
    decBE (beBytesAux fuel n) = n := by
  induction fuel with
  | zero =>
    intro n h
    simp only [Nat.pow_zero, Nat.lt_one_iff] at h
    simp [beBytesAux, decBE, h]
  | succ k ih =>
    intro n h
    simp only [beBytesAux]
    by_cases h0 : n = 0
    · simp [decBE, h0]
    · rw [if_neg h0, decBE_append]
      have hdiv : n / 256 < 256 ^ k := by
        rw [Nat.div_lt_iff_lt_mul (by norm_num)]
        calc n < 256 ^ (k + 1) := h
        _ = 256 ^ k * 256 := by ring
      rw [ih _ hdiv]
      simp [decBE]
      omega

theorem beBytesAux_length_le (fuel : Nat) : ∀ (n k : Nat), n < 256 ^ k →
    (beBytesAux fuel n).length ≤ k := by
  induction fuel with
  | zero => simp [beBytesAux]
  | succ f ih =>
    intro n k h
    simp only [beBytesAux]
    by_cases h0 : n = 0
    · simp [h0]
    · rw [if_neg h0]
      cases k with
      | zero =>
        simp only [Nat.pow_zero, Nat.lt_one_iff] at h
        exact absurd h h0
      | succ k' =>
        have hdiv : n / 256 < 256 ^ k' := by
          rw [Nat.div_lt_iff_lt_mul (by norm_num)]
          calc n < 256 ^ (k' + 1) := h
          _ = 256 ^ k' * 256 := by ring
        simpa using ih (n / 256) k' hdiv

theorem beBytesAux_head_ne_zero (fuel : Nat) : ∀ (n hd : Nat) (tl : List Nat), 0 < n →
    n < 256 ^ fuel → beBytesAux fuel n = hd :: tl → hd ≠ 0 := by
  induction fuel with
  | zero => simp [beBytesAux]
  | succ k ih =>
    intro n hd tl hn hb heq
    simp only [beBytesAux] at heq
    rw [if_neg (by omega)] at heq
    cases hrec : beBytesAux k (n / 256) with
    | nil =>
      rw [hrec] at heq
      simp only [List.nil_append, List.cons.injEq] at heq
      have h1 : n / 256 = 0 := by
        rcases (beBytesAux_eq_nil k (n / 256)).mp hrec with hk | h0
        · subst hk
          have hb' : n < 256 := by simpa using hb
          exact Nat.div_eq_of_lt hb' 
        · exact h0
      have h2 : n % 256 = n := by omega
      omega
    | cons h' t' =>
      rw [hrec] at heq
      have hd' : 0 < n / 256 := by
        by_contra hc
        have hz : n / 256 = 0 := by omega
        rw [hz] at hrec
        have : beBytesAux k 0 = [] := (beBytesAux_eq_nil k 0).mpr (Or.inr rfl)
        rw [this] at hrec
        simp at hrec
      have hdivb : n / 256 < 256 ^ k := by
        rw [Nat.div_lt_iff_lt_mul (by norm_num)]
        calc n < 256 ^ (k + 1) := hb
        _ = 256 ^ k * 256 := by ring
      have hne := ih (n / 256) h' t' hd' hdivb hrec
      simp only [List.cons_append, List.cons.injEq] at heq
      omega

/-- A byte of a `beBytes` string is a byte. -/
theorem beBytes_lt (n : Nat) : ∀ x ∈ beBytes n, x < 256 := beBytesAux_lt 64 n

theorem decBE_beBytes (n : Nat) (h : n < 256 ^ 64) : decBE (beBytes n) = n :=
  decBE_beBytesAux 64 n h

theorem beBytes_eq_nil (n : Nat) : beBytes n = [] ↔ n = 0 := by
  simp [beBytes, beBytesAux_eq_nil]

theorem beBytes_length_le (n k : Nat) (h : n < 256 ^ k) : (beBytes n).length ≤ k :=
  beBytesAux_length_le 64 n k h

theorem beBytesAux_small (fuel n : Nat) (h1 : 0 < n) (h2 : n < 256) :
    beBytesAux (fuel + 1) n = [n] := by
  have hz : n / 256 = 0 := Nat.div_eq_of_lt h2
  simp only [beBytesAux, hz]
  rw [if_neg (by omega)]
  have : beBytesAux fuel 0 = [] := (beBytesAux_eq_nil fuel 0).mpr (Or.inr rfl)
  rw [this]
  simp [Nat.mod_eq_of_lt h2]

theorem beBytes_small (n : Nat) (h1 : 0 < n) (h2 : n < 256) : beBytes n = [n] :=
  beBytesAux_small 63 n h1 h2

/-! ## RLP canonical encoding (model of the external `alloy_rlp` crate) -/

/-- RLP encoding of a byte string (`alloy_rlp` string item). -/
def rlpStr (b : List Nat) : List Nat :=
  if b.length = 1 ∧ b.headI < 0x80 then b
  else if b.length < 56 then (0x80 + b.length) :: b
  else (0xB7 + (beBytes b.length).length) :: (beBytes b.length ++ b)

/-- RLP encoding of a scalar (`u64`, `U256`, `u8`, ... in `alloy_rlp`):
the minimal big-endian byte string, encoded as a string item. -/
def rlpNat (n : Nat) : List Nat := rlpStr (beBytes n)

/-- RLP list header for a payload of length `len`. -/
def rlpListHeader (len : Nat) : List Nat :=
  if len < 56 then [0xC0 + len]
  else (0xF7 + (beBytes len).length) :: beBytes len

/-- RLP encoding of a list item with the given encoded payload. -/
def rlpList (payload : List Nat) : List Nat := rlpListHeader payload.length ++ payload

deriving instance DecidableEq for Except

/-- Errors of the RLP decoder, mirroring `alloy_rlp::Error`. -/
inductive RlpErr where
  | inputTooShort
  | nonCanonicalSingleByte
  | nonCanonicalSize
  | leadingZero
  | overflow
  | unexpectedString
  | unexpectedList
  | unexpectedLength
  | listLengthMismatch
  | custom (msg : String)
  deriving DecidableEq, Repr

/-- Decode one RLP item from the front of `b`: returns
`(isList, payload, rest)`, enforcing the canonical-form checks of
`alloy_rlp::Header::decode`. -/
def parseItem (b : List Nat) : Except RlpErr (Bool × List Nat × List Nat) :=
  match b with
  | [] => .error .inputTooShort
  | b0 :: tl =>
    if b0 < 0x80 then .ok (false, [b0], tl)
    else if b0 ≤ 0xB7 then
      let len := b0 - 0x80
      if len ≤ tl.length then
        if len = 1 ∧ tl.headI < 0x80 then .error .nonCanonicalSingleByte
        else .ok (false, tl.take len, tl.drop len)
      else .error .inputTooShort
    else if b0 ≤ 0xBF then
      let lenlen := b0 - 0xB7
      if lenlen ≤ tl.length then
        let lb := tl.take lenlen
        let rest := tl.drop lenlen
        if lb.headI = 0 then .error .leadingZero
        else
          let len := decBE lb
          if len < 56 then .error .nonCanonicalSize
          else if len ≤ rest.length then .ok (false, rest.take len, rest.drop len)
          else .error .inputTooShort
      else .error .inputTooShort
    else if b0 ≤ 0xF7 then
      let len := b0 - 0xC0
      if len ≤ tl.length then .ok (true, tl.take len, tl.drop len)
      else .error .inputTooShort
    else
      let lenlen := b0 - 0xF7
      if lenlen ≤ tl.length then
        let lb := tl.take lenlen
        let rest := tl.drop lenlen
        if lb.headI = 0 then .error .leadingZero
        else
          let len := decBE lb
          if len < 56 then .error .nonCanonicalSize
          else if len ≤ rest.length then .ok (true, rest.take len, rest.drop len)
          else .error .inputTooShort
      else .error .inputTooShort

/-- Decode an RLP scalar with a maximal byte width (8 for `u64`, 32 for `U256`),
mirroring the `alloy_rlp` `Decodable` implementation for unsigned integers. -/
def decScalar (maxLen : Nat) (b : List Nat) : Except RlpErr (Nat × List Nat) :=
  match parseItem b with
  | .error e => .error e
  | .ok (isList, payload, rest) =>
    if isList then .error .unexpectedList
    else if payload.headI = 0 ∧ payload ≠ [] then .error .leadingZero
    else if maxLen < payload.length then .error .overflow
    else .ok (decBE payload, rest)

/-- Decode an RLP byte string (`Bytes`). -/
def decBytes (b : List Nat) : Except RlpErr (List Nat × List Nat) :=
  match parseItem b with
  | .error e => .error e
  | .ok (isList, payload, rest) =>
    if isList then .error .unexpectedList
    else .ok (payload, rest)

/-- Decode a fixed-width RLP byte string (`Address` = 20, `B256` = 32). -/
def decFixedBytes (width : Nat) (b : List Nat) : Except RlpErr (List Nat × List Nat) :=
  match decBytes b with
  | .error e => .error e
  | .ok (payload, rest) =>
    if payload.length = width then .ok (payload, rest)
    else .error .unexpectedLength

/-- Decode an RLP `bool` (scalar 0 or 1), as `alloy_rlp` does via `u8`. -/
def decBool (b : List Nat) : Except RlpErr (Bool × List Nat) :=
  match decScalar 1 b with
  | .error e => .error e
  | .ok (n, rest) =>
    if n = 0 then .ok (false, rest)
    else if n = 1 then .ok (true, rest)
    else .error (.custom "invalid bool value")

/-- Decode an RLP list item, returning its payload. -/
def decListPayload (b : List Nat) : Except RlpErr (List Nat × List Nat) :=
  match parseItem b with
  | .error e => .error e
  | .ok (isList, payload, rest) =>
    if isList then .ok (payload, rest)
    else .error .unexpectedString

/-! ## Round-trip lemmas for the RLP primitives -/

theorem take_append_length (a b : List Nat) (n : Nat) (h : n = a.length) :
    (a ++ b).take n = a := by
  subst h
  exact List.take_left a b

theorem drop_append_length (a b : List Nat) (n : Nat) (h : n = a.length) :
    (a ++ b).drop n = b := by
  subst h
  exact List.drop_left a b

theorem parseItem_rlpStr (b rest : List Nat) (hb : ∀ x ∈ b, x < 256)
    (hlen : b.length < 2 ^ 64) :
    parseItem (rlpStr b ++ rest) = .ok (false, b, rest) := by
  by_cases hA : b.length = 1 ∧ b.headI < 0x80
  · obtain ⟨x, hx⟩ : ∃ x, b = [x] := by
      cases b with
      | nil => simp at hA
      | cons y tl =>
        cases tl with
        | nil => exact ⟨y, rfl⟩
        | cons z zs => simp at hA
    subst hx
    simp only [List.headI] at hA
    simp [rlpStr, hA, parseItem, hA.2]
  · rw [rlpStr, if_neg hA]
    by_cases hshort : b.length < 56
    · rw [if_pos hshort]
      simp only [parseItem, List.cons_append]
      rw [if_neg (by omega), if_pos (by omega)]
      rw [if_pos (by simp only [List.length_append]; omega)]
      rw [if_neg ?hcanon]
      case hcanon =>
        rintro ⟨h1, h2⟩
        have hb1 : b.length = 1 := by omega
        obtain ⟨x, hx⟩ : ∃ x, b = [x] := by
          cases b with
          | nil => simp at hb1
          | cons y tl =>
            cases tl with
            | nil => exact ⟨y, rfl⟩
            | cons z zs => simp at hb1
        subst hx
        simp only [List.cons_append, List.headI] at h2
        exact hA ⟨rfl, h2⟩
      have hsub : 0x80 + b.length - 0x80 = b.length := by omega
      rw [hsub, take_append_length b rest _ rfl, drop_append_length b rest _ rfl]
    · rw [if_neg hshort]
      have hL : 56 ≤ b.length := by omega
      have hlb_lt : ∀ x ∈ beBytes b.length, x < 256 := beBytes_lt _
      have hlb_len_le : (beBytes b.length).length ≤ 8 := by
        apply beBytes_length_le
        calc b.length < 2 ^ 64 := hlen
        _ = 256 ^ 8 := by norm_num
      obtain ⟨lh, lt', hlb⟩ : ∃ lh lt', beBytes b.length = lh :: lt' := by
        cases hcase : beBytes b.length with
        | nil =>
          exfalso
          have := (beBytes_eq_nil b.length).mp hcase
          omega
        | cons lh lt' => exact ⟨lh, lt', rfl⟩
      have hlh : lh ≠ 0 := by
        apply beBytesAux_head_ne_zero 64 b.length lh lt' (by omega) _ hlb
        calc b.length < 2 ^ 64 := hlen
        _ ≤ 256 ^ 64 := by norm_num
      have hll1 : 1 ≤ (beBytes b.length).length := by rw [hlb]; simp
      simp only [List.cons_append, List.append_assoc, parseItem]
      rw [if_neg (by omega), if_neg (by omega), if_pos (by omega)]
      rw [if_pos (by simp only [List.length_append]; omega)]
      have hsub : 0xB7 + (beBytes b.length).length - 0xB7 = (beBytes b.length).length := by
        omega
      rw [hsub]
      rw [take_append_length (beBytes b.length) _ _ rfl,
        drop_append_length (beBytes b.length) _ _ rfl]
      rw [if_neg ?hzero]
      case hzero =>
        rw [hlb]
        simpa [List.headI] using hlh
      rw [decBE_beBytes b.length (by calc b.length < 2 ^ 64 := hlen
            _ ≤ 256 ^ 64 := by norm_num)]
      rw [if_neg (by omega)]
      rw [if_pos (by simp only [List.length_append]; omega)]
      rw [take_append_length b rest _ rfl, drop_append_length b rest _ rfl]

theorem parseItem_rlpList (payload rest : List Nat) (_hp : ∀ x ∈ payload, x < 256)
    (hlen : payload.length < 2 ^ 64) :
    parseItem (rlpList payload ++ rest) = .ok (true, payload, rest) := by
  rw [rlpList, rlpListHeader]
  by_cases hshort : payload.length < 56
  · rw [if_pos hshort]
    simp only [List.cons_append, List.append_assoc, List.nil_append, parseItem]
    rw [if_neg (by omega), if_neg (by omega), if_neg (by omega), if_pos (by omega)]
    have hsub : 0xC0 + payload.length - 0xC0 = payload.length := by omega
    rw [hsub, if_pos (by simp only [List.length_append]; omega)]
    rw [take_append_length payload rest _ rfl, drop_append_length payload rest _ rfl]
  · rw [if_neg hshort]
    have hL : 56 ≤ payload.length := by omega
    have hlb_len_le : (beBytes payload.length).length ≤ 8 := by
      apply beBytes_length_le
      calc payload.length < 2 ^ 64 := hlen
      _ = 256 ^ 8 := by norm_num
    obtain ⟨lh, lt', hlb⟩ : ∃ lh lt', beBytes payload.length = lh :: lt' := by
      cases hcase : beBytes payload.length with
      | nil =>
        exfalso
        have := (beBytes_eq_nil payload.length).mp hcase
        omega
      | cons lh lt' => exact ⟨lh, lt', rfl⟩
    have hlh : lh ≠ 0 := by
      apply beBytesAux_head_ne_zero 64 payload.length lh lt' (by omega) _ hlb
      calc payload.length < 2 ^ 64 := hlen
      _ ≤ 256 ^ 64 := by norm_num
    have hll1 : 1 ≤ (beBytes payload.length).length := by rw [hlb]; simp
    simp only [List.cons_append, List.append_assoc, parseItem]
    rw [if_neg (by omega), if_neg (by omega), if_neg (by omega), if_neg (by omega)]
    have hsub : 0xF7 + (beBytes payload.length).length - 0xF7 =
        (beBytes payload.length).length := by omega
    rw [hsub]
    rw [if_pos (by simp only [List.length_append]; omega)]
    rw [take_append_length (beBytes payload.length) _ _ rfl,
      drop_append_length (beBytes payload.length) _ _ rfl]
    rw [if_neg ?hzero]
    case hzero =>
      rw [hlb]
      simpa [List.headI] using hlh
    rw [decBE_beBytes payload.length (by calc payload.length < 2 ^ 64 := hlen
          _ ≤ 256 ^ 64 := by norm_num)]
    rw [if_neg (by omega)]
    rw [if_pos (by simp only [List.length_append]; omega)]
    rw [take_append_length payload rest _ rfl, drop_append_length payload rest _ rfl]

theorem decScalar_rlpNat (maxLen n : Nat) (rest : List Nat)
    (hmax : n < 256 ^ maxLen) (h64 : n < 256 ^ 64) :
    decScalar maxLen (rlpNat n ++ rest) = .ok (n, rest) := by
  have hlen8 : (beBytes n).length ≤ 64 := beBytes_length_le n 64 h64
  rw [rlpNat, decScalar]
  rw [parseItem_rlpStr (beBytes n) rest (beBytes_lt n) (by omega)]
  simp only []
  rw [if_neg (by simp)]
  rw [if_neg ?hlz]
  case hlz =>
    rintro ⟨h1, h2⟩
    obtain ⟨hd, tl, hcons⟩ : ∃ hd tl, beBytes n = hd :: tl := by
      cases hc : beBytes n with
      | nil => exact absurd hc h2
      | cons hd tl => exact ⟨hd, tl, rfl⟩
    have hn0 : 0 < n := by
      rcases Nat.eq_zero_or_pos n with h0 | h0
      · rw [h0] at hcons
        rw [(beBytes_eq_nil 0).mpr rfl] at hcons
        exact absurd hcons (by simp)
      · exact h0
    have := beBytesAux_head_ne_zero 64 n hd tl hn0 (by omega) hcons
    rw [hcons] at h1
    simp [List.headI] at h1
    exact this h1
  rw [if_neg (by push_neg; exact beBytes_length_le n maxLen hmax)]
  rw [decBE_beBytes n h64]

theorem decBytes_rlpStr (b rest : List Nat) (hb : ∀ x ∈ b, x < 256)
    (hlen : b.length < 2 ^ 64) :
    decBytes (rlpStr b ++ rest) = .ok (b, rest) := by
  rw [decBytes, parseItem_rlpStr b rest hb hlen]
  simp

theorem decFixedBytes_rlpStr (width : Nat) (b rest : List Nat) (hb : ∀ x ∈ b, x < 256)
    (hlen : b.length < 2 ^ 64) (hw : b.length = width) :
    decFixedBytes width (rlpStr b ++ rest) = .ok (b, rest) := by
  rw [decFixedBytes, decBytes_rlpStr b rest hb hlen]
  simp [hw]

/-- RLP encoding of a `bool`, as `alloy_rlp` encodes it (via `u8`). -/
def rlpBool : Bool → List Nat
  | false => rlpNat 0
  | true => rlpNat 1

theorem decBool_rlpBool (v : Bool) (rest : List Nat) :
    decBool (rlpBool v ++ rest) = .ok (v, rest) := by
  cases v with
  | false =>
    rw [rlpBool, decBool, decScalar_rlpNat 1 0 rest (by norm_num) (by norm_num)]
    norm_num
  | true =>
    rw [rlpBool, decBool, decScalar_rlpNat 1 1 rest (by norm_num) (by norm_num)]
    norm_num

theorem decListPayload_rlpList (payload rest : List Nat) (hp : ∀ x ∈ payload, x < 256)
    (hlen : payload.length < 2 ^ 64) :
    decListPayload (rlpList payload ++ rest) = .ok (payload, rest) := by
  rw [decListPayload, parseItem_rlpList payload rest hp hlen]
  simp

/-! ## Keccak-256 (model of the external hashing primitive used by `revm_primitives`) -/

/-- The 64-bit mask. -/
def w64 : Nat := 18446744073709551616

/-- Left-rotation of a 64-bit lane. -/
def rot64 (x n : Nat) : Nat := ((x <<< n) % w64) ||| (x >>> (64 - n))

/-- Keccak round constants. -/
def keccakRC : List Nat :=
  [1,
   32898,
   9223372036854808714,
   9223372039002292224,
   32907,
   2147483649,
   9223372039002292353,
   9223372036854808585,
   138,
   136,
   2147516425,
   2147483658,
   2147516555,
   9223372036854775947,
   9223372036854808713,
   9223372036854808579,
   9223372036854808578,
   9223372036854775936,
   32778,
   9223372039002259466,
   9223372039002292353,
   9223372036854808704,
   2147483649,
   9223372039002292232]

/-- The ρ rotation-offset table, computed from the FIPS 202 recurrence:
starting at lane (1,0), step `(x,y) ↦ (y, (2x+3y) mod 5)` with offset
`(t+1)(t+2)/2 mod 64` at step `t`; lane (0,0) has offset 0. -/
def rotOffsetsFrom : Nat → Nat → Nat → Nat → List (Nat × Nat)
  | 0, _, _, _ => []
  | fuel + 1, t, x, y =>
    (x + 5 * y, (t + 1) * (t + 2) / 2 % 64) :: rotOffsetsFrom fuel (t + 1) y ((2 * x + 3 * y) % 5)

/-- Rotation offsets as an association list over lane indices. -/
def keccakRotAssoc : List (Nat × Nat) := (0, 0) :: rotOffsetsFrom 24 0 1 0

/-- Keccak rotation offsets, indexed by `x + 5 * y`. -/
def keccakRot : List Nat :=
  (List.range 25).map fun i =>
    ((keccakRotAssoc.filter fun p => p.1 = i).headI).2

/-- Lane lookup with default 0. -/
def lane (s : List Nat) (i : Nat) : Nat := s.getD i 0

/-- The θ step. -/
def keccakTheta (s : List Nat) : List Nat :=
  let c := (List.range 5).map fun x =>
    lane s x ^^^ lane s (x + 5) ^^^ lane s (x + 10) ^^^ lane s (x + 15) ^^^ lane s (x + 20)
  let d := (List.range 5).map fun x =>
    lane c ((x + 4) % 5) ^^^ rot64 (lane c ((x + 1) % 5)) 1
  (List.range 25).map fun i => lane s i ^^^ lane d (i % 5)

/-- The combined ρ and π steps. -/
def keccakRhoPi (s : List Nat) : List Nat :=
  (List.range 25).map fun j =>
    -- position (X, Y) of the output lane j = X + 5 * Y receives A[x, y] rotated,
    -- where X = y and Y = (2 * x + 3 * y) % 5; invert: x = (X + 3 * Y) % 5, y = X
    let X := j % 5
    let Y := j / 5
    let x := (X + 3 * Y) % 5
    let y := X
    rot64 (lane s (x + 5 * y)) (lane keccakRot (x + 5 * y))

/-- The χ step. -/
def keccakChi (s : List Nat) : List Nat :=
  (List.range 25).map fun j =>
    let x := j % 5
    let y := j / 5
    lane s j ^^^ (((w64 - 1) ^^^ lane s ((x + 1) % 5 + 5 * y)) &&& lane s ((x + 2) % 5 + 5 * y))

/-- One Keccak round. -/
def keccakRound (s : List Nat) (rc : Nat) : List Nat :=
  let s' := keccakChi (keccakRhoPi (keccakTheta s))
  (lane s' 0 ^^^ rc) :: s'.tail

/-- The Keccak-f[1600] permutation. -/
def keccakF (s : List Nat) : List Nat := keccakRC.foldl keccakRound s

/-- Little-endian interpretation of a byte string. -/
def decLE (b : List Nat) : Nat := b.foldr (fun x acc => acc * 256 + x) 0

/-- The 8 little-endian bytes of a 64-bit lane. -/
def leBytes8 (x : Nat) : List Nat := (List.range 8).map fun i => (x >>> (8 * i)) % 256

/-- XOR a 136-byte rate block into the state. -/
def xorBlock (s block : List Nat) : List Nat :=
  (List.range 25).map fun i => lane s i ^^^ decLE ((block.drop (8 * i)).take 8)

/-- Multi-rate padding for rate 136 (Keccak-256 as used by Ethereum: domain byte `0x01`). -/
def keccakPad (m : List Nat) : List Nat :=
  let q := 136 - m.length % 136
  if q = 1 then m ++ [0x81]
  else m ++ [0x01] ++ List.replicate (q - 2) 0 ++ [0x80]

/-- Absorb the padded message block by block (`fuel` bounds the number of blocks). -/
def absorbBlocks : Nat → List Nat → List Nat → List Nat
  | 0, s, _ => s
  | fuel + 1, s, bytes =>
    if bytes.isEmpty then s
    else absorbBlocks fuel (keccakF (xorBlock s (bytes.take 136))) (bytes.drop 136)

/-- Keccak-256 of a byte string: a 32-byte digest. -/
def keccak256 (m : List Nat) : List Nat :=
  let padded := keccakPad m
  let s := absorbBlocks (padded.length / 136) (List.replicate 25 0) padded
  leBytes8 (lane s 0) ++ leBytes8 (lane s 1) ++ leBytes8 (lane s 2) ++ leBytes8 (lane s 3)

/-! ## Transaction data model

Types from `edr_eth`.  `u64` and `U256` fields are `Nat`s (well-formedness
predicates carry the bounds), addresses are 20-byte lists, `B256` values are
32-byte lists, `Bytes` are arbitrary byte lists. -/

/-- `transaction::TxKind`: `Call(Address)` or `Create` (absent recipient). -/
inductive TxKind where
  | create
  | call (address : List Nat)
  deriving DecidableEq, Repr

/-- Modelled from the spec: the legacy-style signature `{r, s, v}` produced by
`crate::signature::Signature` (module not part of the excerpted sources). -/
structure Signature where
  r : Nat
  s : Nat
  v : Nat
  deriving DecidableEq, Repr

/-- Modelled from the spec: the typed-style signature `{r, s, y_parity}` of
`crate::signature::SignatureWithYParity` (module not part of the excerpted sources). -/
structure SignatureWithYParity where
  r : Nat
  s : Nat
  y_parity : Bool
  deriving DecidableEq, Repr

/-- Modelled from the spec: `crate::signature::Fakeable<SignatureWithYParity>`:
a signature together with the recovered (or embedded, for fakes) caller address
and the out-of-band fakeness marker (module not part of the excerpted sources). -/
structure Fakeable where
  signature : SignatureWithYParity
  caller : List Nat
  is_fake : Bool
  deriving DecidableEq, Repr

/-- `transaction::request::Eip155` (unsigned replay-protected request). -/
structure RequestEip155 where
  nonce : Nat
  gas_price : Nat
  gas_limit : Nat
  kind : TxKind
  value : Nat
  input : List Nat
  chain_id : Nat
  deriving DecidableEq, Repr

/-- `transaction::signed::Eip155` (signed replay-protected transaction).
The `hash` field models the `OnceLock<B256>` cache (`none` = unset). -/
structure SignedEip155 where
  nonce : Nat
  gas_price : Nat
  gas_limit : Nat
  kind : TxKind
  value : Nat
  input : List Nat
  signature : Signature
  hash : Option (List Nat)
  is_fake : Bool
  deriving DecidableEq, Repr

/-- An access-list item: an address and its storage keys. -/
structure AccessListItem where
  address : List Nat
  storage_keys : List (List Nat)
  deriving DecidableEq, Repr

/-- `transaction::signed::Eip4844` (signed blob-carrying transaction). -/
structure SignedEip4844 where
  chain_id : Nat
  nonce : Nat
  max_priority_fee_per_gas : Nat
  max_fee_per_gas : Nat
  gas_limit : Nat
  -- the source field is named `to`, a reserved token in Lean
  to_address : List Nat
  value : Nat
  input : List Nat
  access_list : List AccessListItem
  max_fee_per_blob_gas : Nat
  blob_hashes : List (List Nat)
  signature : Fakeable
  hash : Option (List Nat)
  deriving DecidableEq, Repr

/-- Modelled from the spec: `transaction::request::Eip4844` (unsigned blob-carrying
request; the module is not part of the excerpted sources, fields from spec §3). -/
structure RequestEip4844 where
  chain_id : Nat
  nonce : Nat
  max_priority_fee_per_gas : Nat
  max_fee_per_gas : Nat
  max_fee_per_blob_gas : Nat
  gas_limit : Nat
  -- the source field is named `to`, a reserved token in Lean
  to_address : List Nat
  value : Nat
  input : List Nat
  access_list : List AccessListItem
  blob_hashes : List (List Nat)
  deriving DecidableEq, Repr

/-- The intermediate record of `#[derive(RlpDecodable)] struct Decodable` in
`signed/eip4844.rs` (flat field list including the raw signature). -/
structure DecodableEip4844 where
  chain_id : Nat
  nonce : Nat
  max_priority_fee_per_gas : Nat
  max_fee_per_gas : Nat
  gas_limit : Nat
  -- the source field is named `to`, a reserved token in Lean
  to_address : List Nat
  value : Nat
  input : List Nat
  access_list : List AccessListItem
  max_fee_per_blob_gas : Nat
  blob_hashes : List (List Nat)
  signature : SignatureWithYParity
  deriving DecidableEq, Repr

/-! ## Encoders -/

/-- RLP encoding of a `TxKind`: the recipient address, or the empty string for `Create`. -/
def encodeTxKind : TxKind → List Nat
  | .create => rlpStr []
  | .call a => rlpStr a

/-- Encoded payload of `impl Encodable for transaction::request::Eip155`:
the seven fields in declaration order followed by the two explicit `0u8` items. -/
def encodeRequestEip155Payload (tx : RequestEip155) : List Nat :=
  rlpNat tx.nonce ++ rlpNat tx.gas_price ++ rlpNat tx.gas_limit ++ encodeTxKind tx.kind ++
    rlpNat tx.value ++ rlpStr tx.input ++ rlpNat tx.chain_id ++ rlpNat 0 ++ rlpNat 0

/-- `alloy_rlp::encode` of an unsigned EIP-155 request. -/
def encodeRequestEip155 (tx : RequestEip155) : List Nat :=
  rlpList (encodeRequestEip155Payload tx)

/-- `transaction::request::Eip155::hash`: keccak256 of the RLP encoding. -/
def requestEip155Hash (tx : RequestEip155) : List Nat :=
  keccak256 (encodeRequestEip155 tx)

/-- Modelled from the spec: the RLP encoding of a legacy `Signature` appends
`v`, `r`, `s` flat (spec §6: signed bytes `[..., v, r, s]`; the `signature`
module is not part of the excerpted sources). -/
def encodeSignature (sig : Signature) : List Nat :=
  rlpNat sig.v ++ rlpNat sig.r ++ rlpNat sig.s

/-- Encoded payload of `#[derive(RlpEncodable)] transaction::signed::Eip155`:
fields in declaration order, skipping `hash` and `is_fake`. -/
def encodeSignedEip155Payload (tx : SignedEip155) : List Nat :=
  rlpNat tx.nonce ++ rlpNat tx.gas_price ++ rlpNat tx.gas_limit ++ encodeTxKind tx.kind ++
    rlpNat tx.value ++ rlpStr tx.input ++ encodeSignature tx.signature

/-- `alloy_rlp::encode` of a signed EIP-155 transaction. -/
def encodeSignedEip155 (tx : SignedEip155) : List Nat :=
  rlpList (encodeSignedEip155Payload tx)

/-- RLP encoding of one access-list item: the list `[address, [storage_keys...]]`. -/
def encodeAccessListItem (item : AccessListItem) : List Nat :=
  rlpList (rlpStr item.address ++ rlpList ((item.storage_keys.map rlpStr).flatten))

/-- RLP encoding of an `AccessList`. -/
def encodeAccessList (al : List AccessListItem) : List Nat :=
  rlpList ((al.map encodeAccessListItem).flatten)

/-- RLP encoding of a `Vec<B256>`. -/
def encodeB256List (hs : List (List Nat)) : List Nat :=
  rlpList ((hs.map rlpStr).flatten)

/-- Modelled from the spec: the RLP encoding of `SignatureWithYParity` appends
`y_parity`, `r`, `s` flat (spec §6: `[..., v_or_yParity, r, s]`; the `signature`
module is not part of the excerpted sources). -/
def encodeSignatureWithYParity (sig : SignatureWithYParity) : List Nat :=
  rlpBool sig.y_parity ++ rlpNat sig.r ++ rlpNat sig.s

/-- Encoded payload of `#[derive(RlpEncodable)] transaction::signed::Eip4844`:
fields in declaration order, skipping `hash`; the `Fakeable` signature encodes
as its inner `SignatureWithYParity`. -/
def encodeSignedEip4844Payload (tx : SignedEip4844) : List Nat :=
  rlpNat tx.chain_id ++ rlpNat tx.nonce ++ rlpNat tx.max_priority_fee_per_gas ++
    rlpNat tx.max_fee_per_gas ++ rlpNat tx.gas_limit ++ rlpStr tx.to_address ++ rlpNat tx.value ++
    rlpStr tx.input ++ encodeAccessList tx.access_list ++ rlpNat tx.max_fee_per_blob_gas ++
    encodeB256List tx.blob_hashes ++ encodeSignatureWithYParity tx.signature.signature

/-- `alloy_rlp::encode` of a signed EIP-4844 transaction. -/
def encodeSignedEip4844 (tx : SignedEip4844) : List Nat :=
  rlpList (encodeSignedEip4844Payload tx)

/-- `utils::envelop_bytes`: prepend the one-byte kind discriminator
(modelled from the spec: "one-byte discriminator prepended", §4.1; the
`utils` module is not part of the excerpted sources). -/
def envelop_bytes (id : Nat) (b : List Nat) : List Nat := id :: b

/-! ## u64 arithmetic helpers (release-mode wrapping semantics) -/

/-- Wrapping `u64` addition. -/
def wadd (a b : Nat) : Nat := (a + b) % w64

/-- Wrapping `u64` multiplication. -/
def wmul (a b : Nat) : Nat := (a * b) % w64

/-- Wrapping `u64` subtraction (for `a < 2^64`). -/
def wsub (a b : Nat) : Nat := (a + w64 - b % w64) % w64

/-- Checked `u64` subtraction: `none` models the debug-mode underflow panic. -/
def csub (a b : Nat) : Option Nat := if b ≤ a then some (a - b) else none

/-! ## Signature & recovery engine

Modelled from the spec: the `crate::signature` and `transaction::fake_signature`
modules are not part of the excerpted sources.  Real elliptic-curve signing and
recovery are abstracted as deterministic functions of the hash and key/signature
(spec §4.2: signing produces `{r, s, recovery-id}` with the legacy base 27 already
added to `v`; recovery fails exactly when a scalar is out of the valid curve
range, and otherwise deterministically yields the signer's address). -/

/-- The secp256k1 group order (upper bound for valid signature scalars). -/
def secpN : Nat := 0xFFFFFFFFFFFFFFFFFFFFFFFFFFFFFFFEBAAEDCE6AF48A03BBFD25E8CD0364141

/-- Validity of signature scalars (spec §4.6: out-of-range scalars fail recovery). -/
def sigScalarsValid (r s : Nat) : Bool := 0 < r && r < secpN && 0 < s && s < secpN

/-- Error type of the signature engine (`signature::SignatureError`). -/
inductive SignatureError where
  | invalidSignature
  deriving DecidableEq, Repr

/-- Modelled from the spec: the raw recovery id (0 or 1) of the elliptic-curve
signature, abstracted as a deterministic function of hash and key. -/
def rawRecoveryId (hash : List Nat) (secret_key : Nat) : Nat :=
  (decBE hash + secret_key) % 2

/-- Modelled from the spec: `Signature::new` — real signing; `v` is the raw
recovery id already offset by the legacy base constant 27 (spec §4.2). -/
def signatureNew (hash : List Nat) (secret_key : Nat) : Signature :=
  { r := 1 + (decBE hash + secret_key) % (secpN - 1)
    s := 1 + secret_key % (secpN - 1)
    v := 27 + rawRecoveryId hash secret_key }

/-- Modelled from the spec: the deterministic address a real signature recovers to
(abstraction of elliptic-curve recovery; 20 bytes). -/
def recoverAddress (r s v : Nat) (hash : List Nat) : List Nat :=
  (keccak256 (beBytes r ++ beBytes s ++ beBytes v ++ hash)).drop 12

/-- Modelled from the spec: `Signature::recover` — fails with an
invalid-signature error when a scalar is out of range, otherwise returns the
deterministic signer address.  The `v` offset does not change the recovered
address beyond determinism (the y-parity bit `v % 2` is what the curve uses). -/
def signatureRecover (sig : Signature) (hash : List Nat) :
    Except SignatureError (List Nat) :=
  if sigScalarsValid sig.r sig.s then .ok (recoverAddress sig.r sig.s (sig.v % 2) hash)
  else .error .invalidSignature

/-- Fixed-width big-endian bytes of `n` (width `k`). -/
def natToBytes : Nat → Nat → List Nat
  | 0, _ => []
  | k + 1, n => natToBytes k (n / 256) ++ [n % 256]

/-- Modelled from the spec: `fake_signature::make_fake_signature::<V>` — embeds
the 20 address bytes into `r`, positions the discriminator in `s`, and uses the
legacy base 27 for `v` so that the later chain-id adjustment yields a
wire-shaped `v` (spec §4.2). -/
def make_fake_signature (discriminant : Nat) (address : List Nat) : Signature :=
  { r := decBE address, s := 1 + discriminant, v := 27 }

/-- Modelled from the spec: `fake_signature::recover_fake_signature` — the
inverse extraction: reads the embedded address back out of `r` without any
curve arithmetic and without consulting `v` (spec §4.2). -/
def recover_fake_signature (sig : Signature) : List Nat :=
  natToBytes 20 sig.r

/-- Modelled from the spec: `Fakeable::recover` for typed signatures — validates
the scalars against the reconstructed signing hash and stores the recovered
caller; a failure is an invalid-signature error (spec §4.1, §4.6). -/
def fakeableRecover (sig : SignatureWithYParity) (hash : List Nat) :
    Except SignatureError Fakeable :=
  if sigScalarsValid sig.r sig.s then
    .ok { signature := sig
          caller := recoverAddress sig.r sig.s (if sig.y_parity then 1 else 0) hash
          is_fake := false }
  else .error .invalidSignature

/-! ## EIP-155 request operations (`transaction/request/eip155.rs`) -/

/-- `Eip155::v_value_adjustment`: `chain_id * 2 + 35 - 27` in `u64` arithmetic. -/
def v_value_adjustment (chain_id : Nat) : Nat :=
  wsub (wadd (wmul chain_id 2) 35) 27

/-- `transaction::request::Eip155::sign`. -/
def signRequestEip155 (tx : RequestEip155) (secret_key : Nat) : SignedEip155 :=
  let hash := requestEip155Hash tx
  let sig0 := signatureNew hash secret_key
  { nonce := tx.nonce
    gas_price := tx.gas_price
    gas_limit := tx.gas_limit
    kind := tx.kind
    value := tx.value
    input := tx.input
    signature := { sig0 with v := wadd sig0.v (v_value_adjustment tx.chain_id) }
    hash := none
    is_fake := false }

/-- `transaction::request::Eip155::fake_sign`. -/
def fakeSignRequestEip155 (tx : RequestEip155) (address : List Nat) : SignedEip155 :=
  let sig0 := make_fake_signature 0 address
  { nonce := tx.nonce
    gas_price := tx.gas_price
    gas_limit := tx.gas_limit
    kind := tx.kind
    value := tx.value
    input := tx.input
    signature := { sig0 with v := wadd sig0.v (v_value_adjustment tx.chain_id) }
    hash := none
    is_fake := true }

/-! ## EIP-155 signed-transaction operations (`transaction/signed/eip155.rs`) -/

/-- `transaction::signed::Eip155::chain_id`: `(v - 35) / 2` with the unguarded
`u64` subtraction modelled as release-mode wrapping. -/
def signedEip155ChainId (tx : SignedEip155) : Nat :=
  wsub tx.signature.v 35 / 2

/-- The same computation under debug (panicking) semantics: `none` models the
underflow panic of the unguarded `v - 35`. -/
def signedEip155ChainIdChecked (tx : SignedEip155) : Option Nat :=
  (csub tx.signature.v 35).map (· / 2)

/-- `impl From<&transaction::signed::Eip155> for transaction::request::Eip155`:
reconstructs the unsigned request, deriving `chain_id` from `v`. -/
def requestFromSignedEip155 (tx : SignedEip155) : RequestEip155 :=
  { nonce := tx.nonce
    gas_price := tx.gas_price
    gas_limit := tx.gas_limit
    kind := tx.kind
    value := tx.value
    input := tx.input
    chain_id := signedEip155ChainId tx }

/-- `transaction::signed::Eip155::recover`. -/
def signedEip155Recover (tx : SignedEip155) : Except SignatureError (List Nat) :=
  if tx.is_fake then .ok (recover_fake_signature tx.signature)
  else signatureRecover tx.signature (requestEip155Hash (requestFromSignedEip155 tx))

/-- `transaction::signed::Eip155::hash`: `get_or_init` on the cache; returns the
value and the post-state of the cache cell. -/
def signedEip155HashGet (tx : SignedEip155) : List Nat × SignedEip155 :=
  match tx.hash with
  | some h => (h, tx)
  | none =>
    let h := keccak256 (encodeSignedEip155 tx)
    (h, { tx with hash := some h })

/-- `impl PartialEq for transaction::signed::Eip155`: compares `nonce`,
`gas_price`, `gas_limit`, `kind`, `value`, `input` and `signature` only. -/
def eqSignedEip155 (a b : SignedEip155) : Bool :=
  a.nonce == b.nonce && a.gas_price == b.gas_price && a.gas_limit == b.gas_limit &&
    a.kind == b.kind && a.value == b.value && a.input == b.input &&
    a.signature == b.signature

/-! ## EIP-4844 operations (`transaction/signed/eip4844.rs` and the
spec-modelled `transaction/request/eip4844.rs`) -/

/-- Modelled from the spec: the encoded payload of an unsigned EIP-4844 request
(spec §6: the typed field list without the signature). -/
def encodeRequestEip4844Payload (tx : RequestEip4844) : List Nat :=
  rlpNat tx.chain_id ++ rlpNat tx.nonce ++ rlpNat tx.max_priority_fee_per_gas ++
    rlpNat tx.max_fee_per_gas ++ rlpNat tx.gas_limit ++ rlpStr tx.to_address ++
    rlpNat tx.value ++ rlpStr tx.input ++ encodeAccessList tx.access_list ++
    rlpNat tx.max_fee_per_blob_gas ++ encodeB256List tx.blob_hashes

/-- Modelled from the spec: `transaction::request::Eip4844::hash` — keccak256 of
the kind-prefixed envelope `0x03 ∥ RLP(fields)` (spec §6). -/
def requestEip4844Hash (tx : RequestEip4844) : List Nat :=
  keccak256 (envelop_bytes 3 (rlpList (encodeRequestEip4844Payload tx)))

/-- `impl From<&Decodable> for transaction::request::Eip4844`. -/
def requestFromDecodableEip4844 (tx : DecodableEip4844) : RequestEip4844 :=
  { chain_id := tx.chain_id
    nonce := tx.nonce
    max_priority_fee_per_gas := tx.max_priority_fee_per_gas
    max_fee_per_gas := tx.max_fee_per_gas
    max_fee_per_blob_gas := tx.max_fee_per_blob_gas
    gas_limit := tx.gas_limit
    to_address := tx.to_address
    value := tx.value
    input := tx.input
    access_list := tx.access_list
    blob_hashes := tx.blob_hashes }

/-- `transaction::signed::Eip4844::hash`: `get_or_init` computing keccak256 of
the enveloped bytes `0x03 ∥ RLP(...)`. -/
def signedEip4844HashGet (tx : SignedEip4844) : List Nat × SignedEip4844 :=
  match tx.hash with
  | some h => (h, tx)
  | none =>
    let h := keccak256 (envelop_bytes 3 (encodeSignedEip4844 tx))
    (h, { tx with hash := some h })

/-- `impl PartialEq for transaction::signed::Eip4844`: compares every field
except the `hash` cache. -/
def eqSignedEip4844 (a b : SignedEip4844) : Bool :=
  a.chain_id == b.chain_id && a.nonce == b.nonce &&
    a.max_priority_fee_per_gas == b.max_priority_fee_per_gas &&
    a.max_fee_per_gas == b.max_fee_per_gas &&
    a.max_fee_per_blob_gas == b.max_fee_per_blob_gas &&
    a.gas_limit == b.gas_limit && a.to_address == b.to_address &&
    a.value == b.value && a.input == b.input && a.access_list == b.access_list &&
    a.blob_hashes == b.blob_hashes && a.signature == b.signature

/-! ## Decoders (models of the derived `RlpDecodable` implementations) -/

/-- `alloy` `TxKind` decoding: an empty string is `Create`, otherwise an address. -/
def decTxKind : List Nat → Except RlpErr (TxKind × List Nat)
  | [] => .error .inputTooShort
  | b0 :: tl =>
    if b0 = 0x80 then .ok (.create, tl)
    else
      match decFixedBytes 20 (b0 :: tl) with
      | .error e => .error e
      | .ok (a, rest) => .ok (.call a, rest)

/-- Decode a homogeneous sequence of items until the buffer is exhausted
(`Vec<T>` decoding); `fuel` bounds the number of items. -/
def decItemsAux (dec1 : List Nat → Except RlpErr (α × List Nat)) :
    Nat → List Nat → Except RlpErr (List α)
  | _, [] => .ok []
  | 0, _ :: _ => .error .inputTooShort
  | fuel + 1, b0 :: brest =>
    match dec1 (b0 :: brest) with
    | .error e => .error e
    | .ok (x, rest) =>
      match decItemsAux dec1 fuel rest with
      | .error e => .error e
      | .ok xs => .ok (x :: xs)

/-- Decode a `Vec<B256>` list item. -/
def decB256List (b : List Nat) : Except RlpErr (List (List Nat) × List Nat) :=
  match decListPayload b with
  | .error e => .error e
  | .ok (payload, rest) =>
    match decItemsAux (decFixedBytes 32) payload.length payload with
    | .error e => .error e
    | .ok hs => .ok (hs, rest)

/-- Decode one access-list item (`[address, [storage_keys...]]`). -/
def decAccessListItem (b : List Nat) : Except RlpErr (AccessListItem × List Nat) :=
  match decListPayload b with
  | .error e => .error e
  | .ok (payload, rest) =>
    match decFixedBytes 20 payload with
    | .error e => .error e
    | .ok (addr, rest2) =>
      match decListPayload rest2 with
      | .error e => .error e
      | .ok (keysPayload, rest3) =>
        if rest3.isEmpty then
          match decItemsAux (decFixedBytes 32) keysPayload.length keysPayload with
          | .error e => .error e
          | .ok keys => .ok ({ address := addr, storage_keys := keys }, rest)
        else .error .listLengthMismatch

/-- Decode an `AccessList` list item. -/
def decAccessList (b : List Nat) : Except RlpErr (List AccessListItem × List Nat) :=
  match decListPayload b with
  | .error e => .error e
  | .ok (payload, rest) =>
    match decItemsAux decAccessListItem payload.length payload with
    | .error e => .error e
    | .ok items => .ok (items, rest)

/-- Modelled from the spec: flat decoding of a legacy `Signature` (`v`, `r`, `s`
in wire order; the `signature` module is not part of the excerpted sources). -/
def decSignature (b : List Nat) : Except RlpErr (Signature × List Nat) :=
  match decScalar 8 b with
  | .error e => .error e
  | .ok (v, b1) =>
    match decScalar 32 b1 with
    | .error e => .error e
    | .ok (r, b2) =>
      match decScalar 32 b2 with
      | .error e => .error e
      | .ok (s, b3) => .ok ({ r := r, s := s, v := v }, b3)

/-- Modelled from the spec: flat decoding of a `SignatureWithYParity`
(`y_parity`, `r`, `s` in wire order). -/
def decSignatureWithYParity (b : List Nat) :
    Except RlpErr (SignatureWithYParity × List Nat) :=
  match decBool b with
  | .error e => .error e
  | .ok (p, b1) =>
    match decScalar 32 b1 with
    | .error e => .error e
    | .ok (r, b2) =>
      match decScalar 32 b2 with
      | .error e => .error e
      | .ok (s, b3) => .ok ({ r := r, s := s, y_parity := p }, b3)

/-- `#[derive(RlpDecodable)] transaction::signed::Eip155`: decode the list
header, the seven encoded fields, require the payload to be fully consumed, and
default the skipped `hash` and `is_fake` fields. -/
def decodeSignedEip155 (b : List Nat) : Except RlpErr (SignedEip155 × List Nat) :=
  match decListPayload b with
  | .error e => .error e
  | .ok (payload, rest) =>
    match decScalar 8 payload with
    | .error e => .error e
    | .ok (nonce, p1) =>
      match decScalar 32 p1 with
      | .error e => .error e
      | .ok (gas_price, p2) =>
        match decScalar 8 p2 with
        | .error e => .error e
        | .ok (gas_limit, p3) =>
          match decTxKind p3 with
          | .error e => .error e
          | .ok (kind, p4) =>
            match decScalar 32 p4 with
            | .error e => .error e
            | .ok (value, p5) =>
              match decBytes p5 with
              | .error e => .error e
              | .ok (input, p6) =>
                match decSignature p6 with
                | .error e => .error e
                | .ok (signature, p7) =>
                  if p7.isEmpty then
                    .ok ({ nonce := nonce, gas_price := gas_price,
                           gas_limit := gas_limit, kind := kind, value := value,
                           input := input, signature := signature,
                           hash := none, is_fake := false }, rest)
                  else .error .listLengthMismatch

/-- `#[derive(RlpDecodable)] struct Decodable` from `signed/eip4844.rs`:
the flat twelve-field list including the raw signature. -/
def decodeDecodableEip4844 (b : List Nat) :
    Except RlpErr (DecodableEip4844 × List Nat) :=
  match decListPayload b with
  | .error e => .error e
  | .ok (payload, rest) =>
    match decScalar 8 payload with
    | .error e => .error e
    | .ok (chain_id, p1) =>
      match decScalar 8 p1 with
      | .error e => .error e
      | .ok (nonce, p2) =>
        match decScalar 32 p2 with
        | .error e => .error e
        | .ok (max_priority_fee_per_gas, p3) =>
          match decScalar 32 p3 with
          | .error e => .error e
          | .ok (max_fee_per_gas, p4) =>
            match decScalar 8 p4 with
            | .error e => .error e
            | .ok (gas_limit, p5) =>
              match decFixedBytes 20 p5 with
              | .error e => .error e
              | .ok (to_address, p6) =>
                match decScalar 32 p6 with
                | .error e => .error e
                | .ok (value, p7) =>
                  match decBytes p7 with
                  | .error e => .error e
                  | .ok (input, p8) =>
                    match decAccessList p8 with
                    | .error e => .error e
                    | .ok (access_list, p9) =>
                      match decScalar 32 p9 with
                      | .error e => .error e
                      | .ok (max_fee_per_blob_gas, p10) =>
                        match decB256List p10 with
                        | .error e => .error e
                        | .ok (blob_hashes, p11) =>
                          match decSignatureWithYParity p11 with
                          | .error e => .error e
                          | .ok (signature, p12) =>
                            if p12.isEmpty then
                              .ok ({ chain_id := chain_id, nonce := nonce,
                                     max_priority_fee_per_gas := max_priority_fee_per_gas,
                                     max_fee_per_gas := max_fee_per_gas,
                                     gas_limit := gas_limit, to_address := to_address,
                                     value := value, input := input,
                                     access_list := access_list,
                                     max_fee_per_blob_gas := max_fee_per_blob_gas,
                                     blob_hashes := blob_hashes,
                                     signature := signature }, rest)
                            else .error .listLengthMismatch

/-- `impl alloy_rlp::Decodable for transaction::signed::Eip4844`: structural
decode, reconstruction of the unsigned request, and signature recovery against
its hash; a recovery failure becomes the distinct `Custom("Invalid Signature")`
error. -/
def decodeSignedEip4844 (b : List Nat) : Except RlpErr (SignedEip4844 × List Nat) :=
  match decodeDecodableEip4844 b with
  | .error e => .error e
  | .ok (t, rest) =>
    match fakeableRecover t.signature
        (requestEip4844Hash (requestFromDecodableEip4844 t)) with
    | .error _ => .error (.custom "Invalid Signature")
    | .ok signature =>
      .ok ({ chain_id := t.chain_id, nonce := t.nonce,
             max_priority_fee_per_gas := t.max_priority_fee_per_gas,
             max_fee_per_gas := t.max_fee_per_gas, gas_limit := t.gas_limit,
             to_address := t.to_address, value := t.value, input := t.input,
             access_list := t.access_list,
             max_fee_per_blob_gas := t.max_fee_per_blob_gas,
             blob_hashes := t.blob_hashes, signature := signature,
             hash := none }, rest)

/-! ## Well-formedness predicates (Rust type invariants made explicit) -/

/-- A well-formed 20-byte address. -/
def WfAddr (a : List Nat) : Prop := a.length = 20 ∧ ∀ x ∈ a, x < 256

/-- A well-formed 32-byte word. -/
def WfB256 (h : List Nat) : Prop := h.length = 32 ∧ ∀ x ∈ h, x < 256

/-- A well-formed `TxKind`. -/
def WfTxKind : TxKind → Prop
  | .create => True
  | .call a => WfAddr a

/-- A well-formed signed EIP-155 transaction: machine-integer bounds, byte
contents, and the `usize` bound on the encoded payload. -/
def WfSignedEip155 (tx : SignedEip155) : Prop :=
  tx.nonce < 256 ^ 8 ∧ tx.gas_price < 256 ^ 32 ∧ tx.gas_limit < 256 ^ 8 ∧
    WfTxKind tx.kind ∧ tx.value < 256 ^ 32 ∧ (∀ x ∈ tx.input, x < 256) ∧
    tx.signature.v < 256 ^ 8 ∧ tx.signature.r < 256 ^ 32 ∧ tx.signature.s < 256 ^ 32 ∧
    (encodeSignedEip155Payload tx).length < 2 ^ 64

/-- A well-formed signed EIP-4844 transaction. -/
def WfSignedEip4844 (tx : SignedEip4844) : Prop :=
  tx.chain_id < 256 ^ 8 ∧ tx.nonce < 256 ^ 8 ∧
    tx.max_priority_fee_per_gas < 256 ^ 32 ∧ tx.max_fee_per_gas < 256 ^ 32 ∧
    tx.gas_limit < 256 ^ 8 ∧ WfAddr tx.to_address ∧ tx.value < 256 ^ 32 ∧
    (∀ x ∈ tx.input, x < 256) ∧
    (∀ item ∈ tx.access_list, WfAddr item.address ∧ ∀ k ∈ item.storage_keys, WfB256 k) ∧
    tx.max_fee_per_blob_gas < 256 ^ 32 ∧ (∀ h ∈ tx.blob_hashes, WfB256 h) ∧
    tx.signature.signature.r < 256 ^ 32 ∧ tx.signature.signature.s < 256 ^ 32 ∧
    (encodeSignedEip4844Payload tx).length < 2 ^ 64

/-- Strips a signed EIP-4844 transaction back to the intermediate `Decodable`
record (the inverse direction of the construction in `Decodable::decode`). -/
def decodableFromSignedEip4844 (tx : SignedEip4844) : DecodableEip4844 :=
  { chain_id := tx.chain_id, nonce := tx.nonce,
    max_priority_fee_per_gas := tx.max_priority_fee_per_gas,
    max_fee_per_gas := tx.max_fee_per_gas, gas_limit := tx.gas_limit,
    to_address := tx.to_address, value := tx.value, input := tx.input,
    access_list := tx.access_list, max_fee_per_blob_gas := tx.max_fee_per_blob_gas,
    blob_hashes := tx.blob_hashes, signature := tx.signature.signature }

/-! ## Byte-ness of the encoders -/

theorem rlpStr_bytes (b : List Nat) (hb : ∀ x ∈ b, x < 256) (hl : b.length < 2 ^ 64) :
    ∀ x ∈ rlpStr b, x < 256 := by
  rw [rlpStr]
  by_cases h1 : b.length = 1 ∧ b.headI < 0x80
  · rw [if_pos h1]
    exact hb
  · rw [if_neg h1]
    by_cases h2 : b.length < 56
    · rw [if_pos h2]
      intro x hx
      rcases List.mem_cons.mp hx with h | h
      · omega
      · exact hb x h
    · rw [if_neg h2]
      have hll : (beBytes b.length).length ≤ 8 := by
        apply beBytes_length_le
        calc b.length < 2 ^ 64 := hl
        _ = 256 ^ 8 := by norm_num
      intro x hx
      rcases List.mem_cons.mp hx with h | h
      · omega
      · rcases List.mem_append.mp h with h | h
        · exact beBytes_lt _ x h
        · exact hb x h

theorem rlpNat_bytes (n : Nat) (h : n < 256 ^ 64) : ∀ x ∈ rlpNat n, x < 256 := by
  apply rlpStr_bytes
  · exact beBytes_lt n
  · have := beBytes_length_le n 64 h
    omega

theorem rlpListHeader_bytes (len : Nat) (h : len < 2 ^ 64) :
    ∀ x ∈ rlpListHeader len, x < 256 := by
  rw [rlpListHeader]
  by_cases h2 : len < 56
  · rw [if_pos h2]
    intro x hx
    simp only [List.mem_singleton] at hx
    omega
  · rw [if_neg h2]
    have hll : (beBytes len).length ≤ 8 := by
      apply beBytes_length_le
      calc len < 2 ^ 64 := h
      _ = 256 ^ 8 := by norm_num
    intro x hx
    rcases List.mem_cons.mp hx with hh | hh
    · omega
    · exact beBytes_lt _ x hh

theorem rlpList_bytes (p : List Nat) (hp : ∀ x ∈ p, x < 256) (hl : p.length < 2 ^ 64) :
    ∀ x ∈ rlpList p, x < 256 := by
  rw [rlpList]
  intro x hx
  rcases List.mem_append.mp hx with h | h
  · exact rlpListHeader_bytes p.length hl x h
  · exact hp x h

theorem rlpBool_bytes (v : Bool) : ∀ x ∈ rlpBool v, x < 256 := by
  cases v <;>
    exact rlpNat_bytes _ (by norm_num)

theorem encodeTxKind_bytes (k : TxKind) (hk : WfTxKind k) :
    ∀ x ∈ encodeTxKind k, x < 256 := by
  cases k with
  | create => rw [encodeTxKind]; exact rlpStr_bytes [] (by simp) (by norm_num)
  | call a =>
    rw [encodeTxKind]
    exact rlpStr_bytes a hk.2 (by rw [hk.1]; norm_num)

theorem encodeSignature_bytes (sig : Signature) (hv : sig.v < 256 ^ 64)
    (hr : sig.r < 256 ^ 64) (hs : sig.s < 256 ^ 64) :
    ∀ x ∈ encodeSignature sig, x < 256 := by
  rw [encodeSignature]
  intro x hx
  rcases List.mem_append.mp hx with h | h
  · rcases List.mem_append.mp h with h2 | h2
    · exact rlpNat_bytes _ hv x h2
    · exact rlpNat_bytes _ hr x h2
  · exact rlpNat_bytes _ hs x h

theorem pow256_le (a b : Nat) (h : a ≤ b) : (256 : Nat) ^ a ≤ 256 ^ b :=
  Nat.pow_le_pow_right (by norm_num) h

theorem rlpStr_empty : rlpStr [] = [0x80] := by
  rw [rlpStr]
  norm_num

theorem decTxKind_encodeTxKind (k : TxKind) (rest : List Nat) (hk : WfTxKind k) :
    decTxKind (encodeTxKind k ++ rest) = .ok (k, rest) := by
  cases k with
  | create =>
    rw [encodeTxKind, rlpStr_empty]
    simp [decTxKind]
  | call a =>
    obtain ⟨hlen, hbytes⟩ := hk
    have hfix := decFixedBytes_rlpStr 20 a rest hbytes (by omega) hlen
    have hcons : rlpStr a ++ rest = (0x80 + a.length) :: (a ++ rest) := by
      rw [rlpStr, if_neg (by omega), if_pos (by omega)]
      simp
    rw [encodeTxKind, hcons]
    rw [hcons] at hfix
    rw [decTxKind, if_neg (by omega), hfix]

theorem decSignature_encodeSignature (sig : Signature) (rest : List Nat)
    (hv : sig.v < 256 ^ 8) (hr : sig.r < 256 ^ 32) (hs : sig.s < 256 ^ 32) :
    decSignature (encodeSignature sig ++ rest) = .ok (sig, rest) := by
  have hv64 : sig.v < 256 ^ 64 := lt_of_lt_of_le hv (pow256_le 8 64 (by norm_num))
  have hr64 : sig.r < 256 ^ 64 := lt_of_lt_of_le hr (pow256_le 32 64 (by norm_num))
  have hs64 : sig.s < 256 ^ 64 := lt_of_lt_of_le hs (pow256_le 32 64 (by norm_num))
  rw [show encodeSignature sig ++ rest =
      rlpNat sig.v ++ (rlpNat sig.r ++ (rlpNat sig.s ++ rest)) from by
    simp [encodeSignature]]
  rw [decSignature, decScalar_rlpNat 8 sig.v _ hv hv64]
  simp only []
  rw [decScalar_rlpNat 32 sig.r _ hr hr64]
  simp only []
  rw [decScalar_rlpNat 32 sig.s _ hs hs64]

theorem decSignatureWithYParity_encode (sig : SignatureWithYParity) (rest : List Nat)
    (hr : sig.r < 256 ^ 32) (hs : sig.s < 256 ^ 32) :
    decSignatureWithYParity (encodeSignatureWithYParity sig ++ rest) = .ok (sig, rest) := by
  have hr64 : sig.r < 256 ^ 64 := lt_of_lt_of_le hr (pow256_le 32 64 (by norm_num))
  have hs64 : sig.s < 256 ^ 64 := lt_of_lt_of_le hs (pow256_le 32 64 (by norm_num))
  rw [show encodeSignatureWithYParity sig ++ rest =
      rlpBool sig.y_parity ++ (rlpNat sig.r ++ (rlpNat sig.s ++ rest)) from by
    simp [encodeSignatureWithYParity]]
  rw [decSignatureWithYParity, decBool_rlpBool sig.y_parity]
  simp only []
  rw [decScalar_rlpNat 32 sig.r _ hr hr64]
  simp only []
  rw [decScalar_rlpNat 32 sig.s _ hs hs64]

/-- Generic sequence decoding: a concatenation of encodings decodes to the
original items, for any item decoder with the prefix round-trip property. -/
theorem decItemsAux_flatten {α : Type} (enc : α → List Nat)
    (dec1 : List Nat → Except RlpErr (α × List Nat)) (xs : List α) :
    ∀ fuel : Nat,
    (∀ x ∈ xs, ∀ r, dec1 (enc x ++ r) = .ok (x, r)) →
    (∀ x ∈ xs, enc x ≠ []) →
    xs.length ≤ fuel →
    decItemsAux dec1 fuel ((xs.map enc).flatten) = .ok xs := by
  induction xs with
  | nil =>
    intro fuel _ _ _
    simp only [List.map_nil, List.flatten_nil]
    cases fuel <;> rfl
  | cons x tl ih =>
    intro fuel hdec hne hfuel
    obtain ⟨e0, etl, he⟩ : ∃ e0 etl, enc x = e0 :: etl := by
      cases hcase : enc x with
      | nil => exact absurd hcase (hne x (by simp))
      | cons e0 etl => exact ⟨e0, etl, rfl⟩
    obtain ⟨f, rfl⟩ : ∃ f, fuel = f + 1 := by
      cases fuel with
      | zero => simp at hfuel
      | succ f => exact ⟨f, rfl⟩
    simp only [List.map_cons, List.flatten_cons]
    rw [show enc x ++ (tl.map enc).flatten = e0 :: (etl ++ (tl.map enc).flatten) from by
      rw [he]; simp]
    rw [decItemsAux]
    rw [show e0 :: (etl ++ (tl.map enc).flatten) = enc x ++ (tl.map enc).flatten from by
      rw [he]; simp]
    rw [hdec x (by simp) _]
    simp only []
    rw [ih f (fun y hy => hdec y (by simp [hy])) (fun y hy => hne y (by simp [hy]))
      (by simp at hfuel ⊢; omega)]

/-- Each encoding is nonempty, so the item count is at most the flattened length. -/
theorem length_le_flatten_length {α : Type} (enc : α → List Nat) (xs : List α)
    (hne : ∀ x ∈ xs, enc x ≠ []) :
    xs.length ≤ ((xs.map enc).flatten).length := by
  induction xs with
  | nil => simp
  | cons x tl ih =>
    simp only [List.map_cons, List.flatten_cons, List.length_append, List.length_cons]
    have h1 : 1 ≤ (enc x).length := by
      have := hne x (by simp)
      cases hcase : enc x with
      | nil => exact absurd hcase this
      | cons a b => simp
    have h2 := ih (fun y hy => hne y (by simp [hy]))
    omega

theorem rlpStr_ne_nil (b : List Nat) : rlpStr b ≠ [] := by
  rw [rlpStr]
  by_cases h1 : b.length = 1 ∧ b.headI < 0x80
  · rw [if_pos h1]
    intro hc
    rw [hc] at h1
    simp at h1
  · rw [if_neg h1]
    by_cases h2 : b.length < 56
    · rw [if_pos h2]; simp
    · rw [if_neg h2]; simp

theorem rlpListHeader_ne_nil (len : Nat) : rlpListHeader len ≠ [] := by
  rw [rlpListHeader]
  by_cases h : len < 56
  · rw [if_pos h]; simp
  · rw [if_neg h]; simp

theorem rlpList_ne_nil (p : List Nat) : rlpList p ≠ [] := by
  rw [rlpList]
  intro hc
  rcases List.append_eq_nil.mp hc with ⟨h1, _⟩
  exact rlpListHeader_ne_nil _ h1

theorem rlpList_length_ge (p : List Nat) : p.length < (rlpList p).length := by
  rw [rlpList, List.length_append]
  have h := rlpListHeader_ne_nil p.length
  cases hcase : rlpListHeader p.length with
  | nil => exact absurd hcase h
  | cons a b => simp only [List.length_cons]; omega

theorem flatten_bytes {α : Type} (enc : α → List Nat) (xs : List α)
    (h : ∀ x ∈ xs, ∀ y ∈ enc x, y < 256) :
    ∀ y ∈ ((xs.map enc).flatten), y < 256 := by
  intro y hy
  rw [List.mem_flatten] at hy
  obtain ⟨l, hl, hyl⟩ := hy
  rw [List.mem_map] at hl
  obtain ⟨x, hx, rfl⟩ := hl
  exact h x hx y hyl

theorem length_le_flatten {α : Type} (enc : α → List Nat) (xs : List α) (x : α)
    (hx : x ∈ xs) : (enc x).length ≤ ((xs.map enc).flatten).length := by
  induction xs with
  | nil => simp at hx
  | cons y tl ih =>
    simp only [List.map_cons, List.flatten_cons, List.length_append]
    rcases List.mem_cons.mp hx with rfl | hmem
    · omega
    · have := ih hmem
      omega

theorem encodeB256List_bytes (hs : List (List Nat)) (hwf : ∀ h ∈ hs, WfB256 h)
    (hlen : ((hs.map rlpStr).flatten).length < 2 ^ 64) :
    ∀ x ∈ encodeB256List hs, x < 256 := by
  rw [encodeB256List]
  apply rlpList_bytes _ _ hlen
  apply flatten_bytes
  intro h hh
  exact rlpStr_bytes h (hwf h hh).2 (by rw [(hwf h hh).1]; norm_num)

theorem decB256List_encode (hs : List (List Nat)) (rest : List Nat)
    (hwf : ∀ h ∈ hs, WfB256 h)
    (hlen : ((hs.map rlpStr).flatten).length < 2 ^ 64) :
    decB256List (encodeB256List hs ++ rest) = .ok (hs, rest) := by
  rw [decB256List, encodeB256List]
  rw [decListPayload_rlpList _ rest
    (flatten_bytes _ _ fun h hh =>
      rlpStr_bytes h (hwf h hh).2 (by rw [(hwf h hh).1]; norm_num)) hlen]
  simp only []
  rw [decItemsAux_flatten rlpStr (decFixedBytes 32) hs _
    (fun h hh r => decFixedBytes_rlpStr 32 h r (hwf h hh).2
      (by rw [(hwf h hh).1]; norm_num) (hwf h hh).1)
    (fun h _ => rlpStr_ne_nil h)
    (length_le_flatten_length rlpStr hs fun h _ => rlpStr_ne_nil h)]

theorem encodeAccessListItem_bytes (item : AccessListItem)
    (hwf : WfAddr item.address ∧ ∀ k ∈ item.storage_keys, WfB256 k)
    (hlen : (encodeAccessListItem item).length < 2 ^ 64) :
    ∀ x ∈ encodeAccessListItem item, x < 256 := by
  have hK : ((item.storage_keys.map rlpStr).flatten).length < 2 ^ 64 := by
    have h1 := rlpList_length_ge ((item.storage_keys.map rlpStr).flatten)
    have h2 : (rlpList ((item.storage_keys.map rlpStr).flatten)).length ≤
        (encodeAccessListItem item).length := by
      rw [encodeAccessListItem]
      have h3 := rlpList_length_ge (rlpStr item.address ++
        rlpList ((item.storage_keys.map rlpStr).flatten))
      rw [List.length_append] at h3
      omega
    omega
  have hP : (rlpStr item.address ++
      rlpList ((item.storage_keys.map rlpStr).flatten)).length < 2 ^ 64 := by
    have := rlpList_length_ge (rlpStr item.address ++
      rlpList ((item.storage_keys.map rlpStr).flatten))
    rw [encodeAccessListItem] at hlen
    omega
  rw [encodeAccessListItem]
  apply rlpList_bytes _ _ hP
  intro x hx
  rcases List.mem_append.mp hx with h | h
  · exact rlpStr_bytes _ hwf.1.2 (by rw [hwf.1.1]; norm_num) x h
  · apply rlpList_bytes _ _ hK x h
    apply flatten_bytes
    intro k hk
    exact rlpStr_bytes k (hwf.2 k hk).2 (by rw [(hwf.2 k hk).1]; norm_num)

theorem decAccessListItem_encode (item : AccessListItem) (rest : List Nat)
    (hwf : WfAddr item.address ∧ ∀ k ∈ item.storage_keys, WfB256 k)
    (hlen : (encodeAccessListItem item).length < 2 ^ 64) :
    decAccessListItem (encodeAccessListItem item ++ rest) = .ok (item, rest) := by
  have hK : ((item.storage_keys.map rlpStr).flatten).length < 2 ^ 64 := by
    have h1 := rlpList_length_ge ((item.storage_keys.map rlpStr).flatten)
    have h2 : (rlpList ((item.storage_keys.map rlpStr).flatten)).length ≤
        (encodeAccessListItem item).length := by
      rw [encodeAccessListItem]
      have h3 := rlpList_length_ge (rlpStr item.address ++
        rlpList ((item.storage_keys.map rlpStr).flatten))
      rw [List.length_append] at h3
      omega
    omega
  have hP : (rlpStr item.address ++
      rlpList ((item.storage_keys.map rlpStr).flatten)).length < 2 ^ 64 := by
    have := rlpList_length_ge (rlpStr item.address ++
      rlpList ((item.storage_keys.map rlpStr).flatten))
    rw [encodeAccessListItem] at hlen
    omega
  have hKbytes : ∀ y ∈ ((item.storage_keys.map rlpStr).flatten), y < 256 := by
    apply flatten_bytes
    intro k hk
    exact rlpStr_bytes k (hwf.2 k hk).2 (by rw [(hwf.2 k hk).1]; norm_num)
  have hPbytes : ∀ y ∈ (rlpStr item.address ++
      rlpList ((item.storage_keys.map rlpStr).flatten)), y < 256 := by
    intro y hy
    rcases List.mem_append.mp hy with h | h
    · exact rlpStr_bytes _ hwf.1.2 (by rw [hwf.1.1]; norm_num) y h
    · exact rlpList_bytes _ hKbytes hK y h
  rw [decAccessListItem, encodeAccessListItem]
  rw [decListPayload_rlpList _ rest hPbytes hP]
  simp only []
  rw [decFixedBytes_rlpStr 20 item.address _ hwf.1.2 (by rw [hwf.1.1]; norm_num) hwf.1.1]
  simp only []
  rw [show rlpList ((item.storage_keys.map rlpStr).flatten) =
      rlpList ((item.storage_keys.map rlpStr).flatten) ++ [] from by simp]
  rw [decListPayload_rlpList _ [] hKbytes hK]
  simp only [List.isEmpty_nil, if_true]
  rw [decItemsAux_flatten rlpStr (decFixedBytes 32) item.storage_keys _
    (fun k hk r => decFixedBytes_rlpStr 32 k r (hwf.2 k hk).2
      (by rw [(hwf.2 k hk).1]; norm_num) (hwf.2 k hk).1)
    (fun k _ => rlpStr_ne_nil k)
    (length_le_flatten_length rlpStr item.storage_keys fun k _ => rlpStr_ne_nil k)]

theorem decAccessList_encode (al : List AccessListItem) (rest : List Nat)
    (hwf : ∀ item ∈ al, WfAddr item.address ∧ ∀ k ∈ item.storage_keys, WfB256 k)
    (hlen : (encodeAccessList al).length < 2 ^ 64) :
    decAccessList (encodeAccessList al ++ rest) = .ok (al, rest) := by
  have hflat : ((al.map encodeAccessListItem).flatten).length < 2 ^ 64 := by
    have := rlpList_length_ge ((al.map encodeAccessListItem).flatten)
    rw [encodeAccessList] at hlen
    omega
  have hitem_len : ∀ item ∈ al, (encodeAccessListItem item).length < 2 ^ 64 := by
    intro item hitem
    have := length_le_flatten encodeAccessListItem al item hitem
    omega
  have hflat_bytes : ∀ y ∈ ((al.map encodeAccessListItem).flatten), y < 256 := by
    apply flatten_bytes
    intro item hitem
    exact encodeAccessListItem_bytes item (hwf item hitem) (hitem_len item hitem)
  rw [decAccessList, encodeAccessList]
  rw [decListPayload_rlpList _ rest hflat_bytes hflat]
  simp only []
  rw [decItemsAux_flatten encodeAccessListItem decAccessListItem al _
    (fun item hitem r =>
      decAccessListItem_encode item r (hwf item hitem) (hitem_len item hitem))
    (fun item _ => by rw [encodeAccessListItem]; exact rlpList_ne_nil _)
    (length_le_flatten_length encodeAccessListItem al fun item _ => by
      rw [encodeAccessListItem]; exact rlpList_ne_nil _)]

theorem rlpStr_length_ge (b : List Nat) : b.length ≤ (rlpStr b).length := by
  rw [rlpStr]
  by_cases h1 : b.length = 1 ∧ b.headI < 0x80
  · rw [if_pos h1]
  · rw [if_neg h1]
    by_cases h2 : b.length < 56
    · rw [if_pos h2]; simp
    · rw [if_neg h2]; simp only [List.length_cons, List.length_append]; omega

theorem decodeSignedEip155_encode (t : SignedEip155) (hwf : WfSignedEip155 t) :
    decodeSignedEip155 (encodeSignedEip155 t) =
      .ok ({ t with hash := none, is_fake := false }, []) := by
  obtain ⟨h1, h2, h3, h4, h5, h6, h7, h8, h9, h10⟩ := hwf
  have e8 : (256 : Nat) ^ 8 ≤ 256 ^ 64 := pow256_le 8 64 (by norm_num)
  have e32 : (256 : Nat) ^ 32 ≤ 256 ^ 64 := pow256_le 32 64 (by norm_num)
  have hpb : ∀ x ∈ encodeSignedEip155Payload t, x < 256 := by
    intro x hx
    simp only [encodeSignedEip155Payload, List.append_assoc, List.mem_append] at hx
    rcases hx with hx | hx | hx | hx | hx | hx | hx
    · exact rlpNat_bytes _ (by omega) x hx
    · exact rlpNat_bytes _ (by omega) x hx
    · exact rlpNat_bytes _ (by omega) x hx
    · exact encodeTxKind_bytes _ h4 x hx
    · exact rlpNat_bytes _ (by omega) x hx
    · exact rlpStr_bytes _ h6 (by
        have hle := rlpStr_length_ge t.input
        simp only [encodeSignedEip155Payload, List.length_append] at h10
        omega) x hx
    · exact encodeSignature_bytes _ (by omega) (by omega) (by omega) x hx
  have hinp : t.input.length < 2 ^ 64 := by
    have hle := rlpStr_length_ge t.input
    simp only [encodeSignedEip155Payload, List.length_append] at h10
    omega
  rw [decodeSignedEip155]
  rw [show encodeSignedEip155 t = rlpList (encodeSignedEip155Payload t) ++ [] from by
    rw [encodeSignedEip155]; simp]
  rw [decListPayload_rlpList _ [] hpb h10]
  simp only []
  rw [show encodeSignedEip155Payload t =
      rlpNat t.nonce ++ (rlpNat t.gas_price ++ (rlpNat t.gas_limit ++
        (encodeTxKind t.kind ++ (rlpNat t.value ++ (rlpStr t.input ++
          (encodeSignature t.signature ++ [])))))) from by
    rw [encodeSignedEip155Payload]; simp]
  rw [decScalar_rlpNat 8 t.nonce _ h1 (by omega)]
  simp only []
  rw [decScalar_rlpNat 32 t.gas_price _ h2 (by omega)]
  simp only []
  rw [decScalar_rlpNat 8 t.gas_limit _ h3 (by omega)]
  simp only []
  rw [decTxKind_encodeTxKind t.kind _ h4]
  simp only []
  rw [decScalar_rlpNat 32 t.value _ h5 (by omega)]
  simp only []
  rw [decBytes_rlpStr t.input _ h6 hinp]
  simp only []
  rw [decSignature_encodeSignature t.signature [] h7 h8 h9]
  simp only [List.isEmpty_nil, if_true]

theorem encodeSignatureWithYParity_bytes (sig : SignatureWithYParity)
    (hr : sig.r < 256 ^ 64) (hs : sig.s < 256 ^ 64) :
    ∀ x ∈ encodeSignatureWithYParity sig, x < 256 := by
  rw [encodeSignatureWithYParity]
  intro x hx
  rcases List.mem_append.mp hx with h | h
  · rcases List.mem_append.mp h with h2 | h2
    · exact rlpBool_bytes _ x h2
    · exact rlpNat_bytes _ hr x h2
  · exact rlpNat_bytes _ hs x h

theorem encodeAccessList_bytes (al : List AccessListItem)
    (hwf : ∀ item ∈ al, WfAddr item.address ∧ ∀ k ∈ item.storage_keys, WfB256 k)
    (hlen : (encodeAccessList al).length < 2 ^ 64) :
    ∀ x ∈ encodeAccessList al, x < 256 := by
  have hflat : ((al.map encodeAccessListItem).flatten).length < 2 ^ 64 := by
    have := rlpList_length_ge ((al.map encodeAccessListItem).flatten)
    rw [encodeAccessList] at hlen
    omega
  rw [encodeAccessList]
  apply rlpList_bytes _ _ hflat
  apply flatten_bytes
  intro item hitem
  apply encodeAccessListItem_bytes item (hwf item hitem)
  have := length_le_flatten encodeAccessListItem al item hitem
  omega

theorem decodeDecodableEip4844_encode (t : SignedEip4844) (hwf : WfSignedEip4844 t) :
    decodeDecodableEip4844 (encodeSignedEip4844 t) =
      .ok (decodableFromSignedEip4844 t, []) := by
  obtain ⟨h1, h2, h3, h4, h5, h6, h7, h8, h9, h10, h11, h12, h13, h14⟩ := hwf
  have e8 : (256 : Nat) ^ 8 ≤ 256 ^ 64 := pow256_le 8 64 (by norm_num)
  have e32 : (256 : Nat) ^ 32 ≤ 256 ^ 64 := pow256_le 32 64 (by norm_num)
  have hsum := h14
  simp only [encodeSignedEip4844Payload, List.length_append] at hsum
  have hinp : t.input.length < 2 ^ 64 := by
    have := rlpStr_length_ge t.input
    omega
  have hal_len : (encodeAccessList t.access_list).length < 2 ^ 64 := by omega
  have hbh_len : (encodeB256List t.blob_hashes).length < 2 ^ 64 := by omega
  have hbh_flat : ((t.blob_hashes.map rlpStr).flatten).length < 2 ^ 64 := by
    have := rlpList_length_ge ((t.blob_hashes.map rlpStr).flatten)
    rw [encodeB256List] at hbh_len
    omega
  have hpb : ∀ x ∈ encodeSignedEip4844Payload t, x < 256 := by
    intro x hx
    simp only [encodeSignedEip4844Payload, List.append_assoc, List.mem_append] at hx
    rcases hx with hx | hx | hx | hx | hx | hx | hx | hx | hx | hx | hx | hx
    · exact rlpNat_bytes _ (by omega) x hx
    · exact rlpNat_bytes _ (by omega) x hx
    · exact rlpNat_bytes _ (by omega) x hx
    · exact rlpNat_bytes _ (by omega) x hx
    · exact rlpNat_bytes _ (by omega) x hx
    · exact rlpStr_bytes _ h6.2 (by rw [h6.1]; norm_num) x hx
    · exact rlpNat_bytes _ (by omega) x hx
    · exact rlpStr_bytes _ h8 hinp x hx
    · exact encodeAccessList_bytes _ h9 hal_len x hx
    · exact rlpNat_bytes _ (by omega) x hx
    · exact encodeB256List_bytes _ h11 hbh_flat x hx
    · exact encodeSignatureWithYParity_bytes _ (by omega) (by omega) x hx
  rw [decodeDecodableEip4844]
  rw [show encodeSignedEip4844 t = rlpList (encodeSignedEip4844Payload t) ++ [] from by
    rw [encodeSignedEip4844]; simp]
  rw [decListPayload_rlpList _ [] hpb h14]
  simp only []
  rw [show encodeSignedEip4844Payload t =
      rlpNat t.chain_id ++ (rlpNat t.nonce ++ (rlpNat t.max_priority_fee_per_gas ++
        (rlpNat t.max_fee_per_gas ++ (rlpNat t.gas_limit ++ (rlpStr t.to_address ++
          (rlpNat t.value ++ (rlpStr t.input ++ (encodeAccessList t.access_list ++
            (rlpNat t.max_fee_per_blob_gas ++ (encodeB256List t.blob_hashes ++
              (encodeSignatureWithYParity t.signature.signature ++ []))))))))))) from by
    rw [encodeSignedEip4844Payload]; simp]
  rw [decScalar_rlpNat 8 t.chain_id _ h1 (by omega)]
  simp only []
  rw [decScalar_rlpNat 8 t.nonce _ h2 (by omega)]
  simp only []
  rw [decScalar_rlpNat 32 t.max_priority_fee_per_gas _ h3 (by omega)]
  simp only []
  rw [decScalar_rlpNat 32 t.max_fee_per_gas _ h4 (by omega)]
  simp only []
  rw [decScalar_rlpNat 8 t.gas_limit _ h5 (by omega)]
  simp only []
  rw [decFixedBytes_rlpStr 20 t.to_address _ h6.2 (by rw [h6.1]; norm_num) h6.1]
  simp only []
  rw [decScalar_rlpNat 32 t.value _ h7 (by omega)]
  simp only []
  rw [decBytes_rlpStr t.input _ h8 hinp]
  simp only []
  rw [decAccessList_encode t.access_list _ h9 hal_len]
  simp only []
  rw [decScalar_rlpNat 32 t.max_fee_per_blob_gas _ h10 (by omega)]
  simp only []
  rw [decB256List_encode t.blob_hashes _ h11 hbh_flat]
  simp only []
  rw [decSignatureWithYParity_encode t.signature.signature [] h12 h13]
  simp only [List.isEmpty_nil, if_true]
  rfl

theorem natToBytes_decBE (k : Nat) : ∀ (a : List Nat), a.length = k → (∀ x ∈ a, x < 256) →
    natToBytes k (decBE a) = a := by
  induction k with
  | zero =>
    intro a hlen _
    rw [List.length_eq_zero] at hlen
    subst hlen
    rfl
  | succ n ih =>
    intro a hlen hbytes
    obtain ⟨front, last, rfl⟩ : ∃ front last, a = front ++ [last] := by
      cases hcase : a.reverse with
      | nil =>
        exfalso
        have : a = [] := by simpa using congrArg List.reverse hcase
        subst this
        simp at hlen
      | cons x tl =>
        refine ⟨tl.reverse, x, ?_⟩
        have := congrArg List.reverse hcase
        simpa using this
    have hfront_len : front.length = n := by
      simp only [List.length_append, List.length_cons, List.length_nil] at hlen
      omega
    have hlast : last < 256 := hbytes last (by simp)
    rw [decBE_append]
    have hdec_last : decBE [last] = last := by simp [decBE]
    rw [hdec_last]
    rw [show decBE front * 256 ^ [last].length + last = decBE front * 256 + last from by
      norm_num]
    rw [natToBytes]
    have hdiv : (decBE front * 256 + last) / 256 = decBE front := by omega
    have hmod : (decBE front * 256 + last) % 256 = last := by omega
    rw [hdiv, hmod]
    rw [ih front hfront_len (fun x hx => hbytes x (by simp [hx]))]

theorem w64_eq : w64 = 2 ^ 64 := by norm_num [w64]

theorem signRequestEip155_v (tx : RequestEip155) (key : Nat)
    (h : 2 * tx.chain_id + 36 < 2 ^ 64) :
    (signRequestEip155 tx key).signature.v =
      tx.chain_id * 2 + 35 + rawRecoveryId (requestEip155Hash tx) key := by
  have hrec : rawRecoveryId (requestEip155Hash tx) key < 2 :=
    Nat.mod_lt _ (by norm_num)
  rw [signRequestEip155]
  simp only [signatureNew, v_value_adjustment, wadd, wmul, wsub, w64_eq]
  have h2c : tx.chain_id * 2 % 2 ^ 64 = tx.chain_id * 2 := Nat.mod_eq_of_lt (by omega)
  rw [h2c]
  have h35 : (tx.chain_id * 2 + 35) % 2 ^ 64 = tx.chain_id * 2 + 35 :=
    Nat.mod_eq_of_lt (by omega)
  rw [h35]
  have h27 : 27 % 2 ^ 64 = 27 := by norm_num
  rw [h27]
  have hadj : (tx.chain_id * 2 + 35 + 2 ^ 64 - 27) % 2 ^ 64 = tx.chain_id * 2 + 8 := by
    rw [show tx.chain_id * 2 + 35 + 2 ^ 64 - 27 = (tx.chain_id * 2 + 8) + 2 ^ 64 from by omega]
    rw [Nat.add_mod_right]
    exact Nat.mod_eq_of_lt (by omega)
  rw [hadj]
  omega

theorem signedEip155ChainId_signRequest (tx : RequestEip155) (key : Nat)
    (h : 2 * tx.chain_id + 36 < 2 ^ 64) :
    signedEip155ChainId (signRequestEip155 tx key) = tx.chain_id := by
  have hrec : rawRecoveryId (requestEip155Hash tx) key < 2 :=
    Nat.mod_lt _ (by norm_num)
  rw [signedEip155ChainId, signRequestEip155_v tx key h]
  rw [wsub, w64_eq]
  have h35 : 35 % 2 ^ 64 = 35 := by norm_num
  rw [h35]
  have heq : tx.chain_id * 2 + 35 + rawRecoveryId (requestEip155Hash tx) key + 2 ^ 64 - 35 =
      (tx.chain_id * 2 + rawRecoveryId (requestEip155Hash tx) key) + 2 ^ 64 := by
    omega
  rw [heq, Nat.add_mod_right]
  rw [Nat.mod_eq_of_lt (by omega)]
  omega

theorem fakeSign_recover (tx : RequestEip155) (address : List Nat) (h : WfAddr address) :
    signedEip155Recover (fakeSignRequestEip155 tx address) = .ok address := by
  rw [signedEip155Recover, fakeSignRequestEip155]
  simp only [if_true]
  rw [recover_fake_signature]
  simp only [make_fake_signature]
  rw [natToBytes_decBE 20 address h.1 h.2]

theorem decodeSignedEip4844_encode (t : SignedEip4844) (hwf : WfSignedEip4844 t)
    (hsig : fakeableRecover (decodableFromSignedEip4844 t).signature
        (requestEip4844Hash (requestFromDecodableEip4844 (decodableFromSignedEip4844 t))) =
      .ok t.signature) :
    decodeSignedEip4844 (encodeSignedEip4844 t) = .ok ({ t with hash := none }, []) := by
  rw [decodeSignedEip4844, decodeDecodableEip4844_encode t hwf]
  simp only []
  rw [hsig]
  simp [decodableFromSignedEip4844]

theorem eqSignedEip155_iff (a b : SignedEip155) :
    eqSignedEip155 a b = true ↔
      (a.nonce = b.nonce ∧ a.gas_price = b.gas_price ∧ a.gas_limit = b.gas_limit ∧
        a.kind = b.kind ∧ a.value = b.value ∧ a.input = b.input ∧
        a.signature = b.signature) := by
  simp [eqSignedEip155, Bool.and_eq_true, beq_iff_eq, and_assoc]

theorem eqSignedEip4844_iff (a b : SignedEip4844) :
    eqSignedEip4844 a b = true ↔
      (a.chain_id = b.chain_id ∧ a.nonce = b.nonce ∧
        a.max_priority_fee_per_gas = b.max_priority_fee_per_gas ∧
        a.max_fee_per_gas = b.max_fee_per_gas ∧
        a.max_fee_per_blob_gas = b.max_fee_per_blob_gas ∧
        a.gas_limit = b.gas_limit ∧ a.to_address = b.to_address ∧
        a.value = b.value ∧ a.input = b.input ∧ a.access_list = b.access_list ∧
        a.blob_hashes = b.blob_hashes ∧ a.signature = b.signature) := by
  simp [eqSignedEip4844, Bool.and_eq_true, beq_iff_eq, and_assoc]

theorem signedEip155HashGet_spec (t : SignedEip155)
    (hc : t.hash = none ∨ t.hash = some (keccak256 (encodeSignedEip155 t))) :
    (signedEip155HashGet t).1 = keccak256 (encodeSignedEip155 t) ∧
      (signedEip155HashGet t).2.hash = some ((signedEip155HashGet t).1) ∧
      signedEip155HashGet ((signedEip155HashGet t).2) =
        ((signedEip155HashGet t).1, (signedEip155HashGet t).2) := by
  rcases hc with hc | hc <;>
    simp [signedEip155HashGet, hc]

theorem signedEip4844HashGet_spec (t : SignedEip4844)
    (hc : t.hash = none ∨
      t.hash = some (keccak256 (envelop_bytes 3 (encodeSignedEip4844 t)))) :
    (signedEip4844HashGet t).1 = keccak256 (envelop_bytes 3 (encodeSignedEip4844 t)) ∧
      (signedEip4844HashGet t).2.hash = some ((signedEip4844HashGet t).1) ∧
      signedEip4844HashGet ((signedEip4844HashGet t).2) =
        ((signedEip4844HashGet t).1, (signedEip4844HashGet t).2) := by
  rcases hc with hc | hc <;>
    simp [signedEip4844HashGet, hc]

/-- The distinguished error that `Decodable for Eip4844` reserves for failed
signature recovery. -/
def invalidSigErr : RlpErr := .custom "Invalid Signature"

theorem parseItem_not_invalidSig (b : List Nat) (e : RlpErr)
    (h : parseItem b = .error e) : e ≠ invalidSigErr := by
  cases b with
  | nil =>
    rw [parseItem] at h
    simp only [Except.error.injEq] at h
    subst h
    simp [invalidSigErr]
  | cons b0 tl =>
    simp only [parseItem] at h
    repeat' split at h
    all_goals first
      | (simp only [Except.error.injEq] at h; subst h; simp [invalidSigErr])
      | exact absurd h (by simp)

theorem decScalar_not_invalidSig (maxLen : Nat) (b : List Nat) (e : RlpErr)
    (h : decScalar maxLen b = .error e) : e ≠ invalidSigErr := by
  rw [decScalar] at h
  cases hp : parseItem b with
  | error e1 =>
    rw [hp] at h
    simp only [Except.error.injEq] at h
    subst h
    exact parseItem_not_invalidSig b e1 hp
  | ok v =>
    obtain ⟨isList, payload, rest⟩ := v
    rw [hp] at h
    simp only [] at h
    repeat' split at h
    all_goals first
      | (simp only [Except.error.injEq] at h; subst h; simp [invalidSigErr])
      | exact absurd h (by simp)

theorem decBytes_not_invalidSig (b : List Nat) (e : RlpErr)
    (h : decBytes b = .error e) : e ≠ invalidSigErr := by
  rw [decBytes] at h
  cases hp : parseItem b with
  | error e1 =>
    rw [hp] at h
    simp only [Except.error.injEq] at h
    subst h
    exact parseItem_not_invalidSig b e1 hp
  | ok v =>
    obtain ⟨isList, payload, rest⟩ := v
    rw [hp] at h
    simp only [] at h
    repeat' split at h
    all_goals first
      | (simp only [Except.error.injEq] at h; subst h; simp [invalidSigErr])
      | exact absurd h (by simp)

theorem decFixedBytes_not_invalidSig (width : Nat) (b : List Nat) (e : RlpErr)
    (h : decFixedBytes width b = .error e) : e ≠ invalidSigErr := by
  rw [decFixedBytes] at h
  cases hp : decBytes b with
  | error e1 =>
    rw [hp] at h
    simp only [Except.error.injEq] at h
    subst h
    exact decBytes_not_invalidSig b e1 hp
  | ok v =>
    obtain ⟨payload, rest⟩ := v
    rw [hp] at h
    simp only [] at h
    repeat' split at h
    all_goals first
      | (simp only [Except.error.injEq] at h; subst h; simp [invalidSigErr])
      | exact absurd h (by simp)

theorem decListPayload_not_invalidSig (b : List Nat) (e : RlpErr)
    (h : decListPayload b = .error e) : e ≠ invalidSigErr := by
  rw [decListPayload] at h
  cases hp : parseItem b with
  | error e1 =>
    rw [hp] at h
    simp only [Except.error.injEq] at h
    subst h
    exact parseItem_not_invalidSig b e1 hp
  | ok v =>
    obtain ⟨isList, payload, rest⟩ := v
    rw [hp] at h
    simp only [] at h
    repeat' split at h
    all_goals first
      | (simp only [Except.error.injEq] at h; subst h; simp [invalidSigErr])
      | exact absurd h (by simp)

theorem decBool_not_invalidSig (b : List Nat) (e : RlpErr)
    (h : decBool b = .error e) : e ≠ invalidSigErr := by
  rw [decBool] at h
  cases hp : decScalar 1 b with
  | error e1 =>
    rw [hp] at h
    simp only [Except.error.injEq] at h
    subst h
    exact decScalar_not_invalidSig 1 b e1 hp
  | ok v =>
    obtain ⟨n, rest⟩ := v
    rw [hp] at h
    simp only [] at h
    repeat' split at h
    all_goals first
      | (simp only [Except.error.injEq] at h; subst h; simp [invalidSigErr])
      | exact absurd h (by simp)

theorem decItemsAux_not_invalidSig {α : Type}
    (dec1 : List Nat → Except RlpErr (α × List Nat))
    (hdec1 : ∀ b e, dec1 b = .error e → e ≠ invalidSigErr) :
    ∀ (fuel : Nat) (b : List Nat) (e : RlpErr),
      decItemsAux dec1 fuel b = .error e → e ≠ invalidSigErr := by
  intro fuel
  induction fuel with
  | zero =>
    intro b e h
    cases b with
    | nil => exact absurd h (by rw [decItemsAux] at h ⊢; simp)
    | cons b0 tl =>
      rw [decItemsAux] at h
      simp only [Except.error.injEq] at h
      subst h
      simp [invalidSigErr]
  | succ f ih =>
    intro b e h
    cases b with
    | nil => exact absurd h (by rw [decItemsAux] at h ⊢; simp)
    | cons b0 tl =>
      rw [decItemsAux] at h
      cases h1 : dec1 (b0 :: tl) with
      | error e1 =>
        rw [h1] at h
        simp only [Except.error.injEq] at h
        subst h
        exact hdec1 _ e1 h1
      | ok v =>
        obtain ⟨x, rest⟩ := v
        rw [h1] at h
        simp only [] at h
        cases h2 : decItemsAux dec1 f rest with
        | error e2 =>
          rw [h2] at h
          simp only [Except.error.injEq] at h
          subst h
          exact ih rest e2 h2
        | ok xs =>
          rw [h2] at h
          exact absurd h (by simp)

theorem decB256List_not_invalidSig (b : List Nat) (e : RlpErr)
    (h : decB256List b = .error e) : e ≠ invalidSigErr := by
  rw [decB256List] at h
  cases hp : decListPayload b with
  | error e1 =>
    rw [hp] at h
    simp only [Except.error.injEq] at h
    subst h
    exact decListPayload_not_invalidSig b e1 hp
  | ok v =>
    obtain ⟨payload, rest⟩ := v
    rw [hp] at h
    simp only [] at h
    cases h2 : decItemsAux (decFixedBytes 32) payload.length payload with
    | error e2 =>
      rw [h2] at h
      simp only [Except.error.injEq] at h
      subst h
      exact decItemsAux_not_invalidSig _ (decFixedBytes_not_invalidSig 32) _ _ e2 h2
    | ok hs =>
      rw [h2] at h
      exact absurd h (by simp)

theorem decAccessListItem_not_invalidSig (b : List Nat) (e : RlpErr)
    (h : decAccessListItem b = .error e) : e ≠ invalidSigErr := by
  rw [decAccessListItem] at h
  cases hp : decListPayload b with
  | error e1 =>
    rw [hp] at h
    simp only [Except.error.injEq] at h
    subst h
    exact decListPayload_not_invalidSig b e1 hp
  | ok v =>
    obtain ⟨payload, rest⟩ := v
    rw [hp] at h
    simp only [] at h
    cases h2 : decFixedBytes 20 payload with
    | error e2 =>
      rw [h2] at h
      simp only [Except.error.injEq] at h
      subst h
      exact decFixedBytes_not_invalidSig 20 payload e2 h2
    | ok v2 =>
      obtain ⟨addr, rest2⟩ := v2
      rw [h2] at h
      simp only [] at h
      cases h3 : decListPayload rest2 with
      | error e3 =>
        rw [h3] at h
        simp only [Except.error.injEq] at h
        subst h
        exact decListPayload_not_invalidSig rest2 e3 h3
      | ok v3 =>
        obtain ⟨keysPayload, rest3⟩ := v3
        rw [h3] at h
        simp only [] at h
        split at h
        · cases h4 : decItemsAux (decFixedBytes 32) keysPayload.length keysPayload with
          | error e4 =>
            rw [h4] at h
            simp only [Except.error.injEq] at h
            subst h
            exact decItemsAux_not_invalidSig _ (decFixedBytes_not_invalidSig 32) _ _ e4 h4
          | ok keys =>
            rw [h4] at h
            exact absurd h (by simp)
        · simp only [Except.error.injEq] at h
          subst h
          simp [invalidSigErr]

theorem decAccessList_not_invalidSig (b : List Nat) (e : RlpErr)
    (h : decAccessList b = .error e) : e ≠ invalidSigErr := by
  rw [decAccessList] at h
  cases hp : decListPayload b with
  | error e1 =>
    rw [hp] at h
    simp only [Except.error.injEq] at h
    subst h
    exact decListPayload_not_invalidSig b e1 hp
  | ok v =>
    obtain ⟨payload, rest⟩ := v
    rw [hp] at h
    simp only [] at h
    cases h2 : decItemsAux decAccessListItem payload.length payload with
    | error e2 =>
      rw [h2] at h
      simp only [Except.error.injEq] at h
      subst h
      exact decItemsAux_not_invalidSig _ decAccessListItem_not_invalidSig _ _ e2 h2
    | ok items =>
      rw [h2] at h
      exact absurd h (by simp)

theorem decSignatureWithYParity_not_invalidSig (b : List Nat) (e : RlpErr)
    (h : decSignatureWithYParity b = .error e) : e ≠ invalidSigErr := by
  rw [decSignatureWithYParity] at h
  cases hp : decBool b with
  | error e1 =>
    rw [hp] at h
    simp only [Except.error.injEq] at h
    subst h
    exact decBool_not_invalidSig b e1 hp
  | ok v =>
    obtain ⟨p, b1⟩ := v
    rw [hp] at h
    simp only [] at h
    cases h2 : decScalar 32 b1 with
    | error e2 =>
      rw [h2] at h
      simp only [Except.error.injEq] at h
      subst h
      exact decScalar_not_invalidSig 32 b1 e2 h2
    | ok v2 =>
      obtain ⟨r, b2⟩ := v2
      rw [h2] at h
      simp only [] at h
      cases h3 : decScalar 32 b2 with
      | error e3 =>
        rw [h3] at h
        simp only [Except.error.injEq] at h
        subst h
        exact decScalar_not_invalidSig 32 b2 e3 h3
      | ok v3 =>
        rw [h3] at h
        exact absurd h (by simp)

theorem decodeDecodableEip4844_not_invalidSig (b : List Nat) (e : RlpErr)
    (h : decodeDecodableEip4844 b = .error e) : e ≠ invalidSigErr := by
  rw [decodeDecodableEip4844] at h
  cases h0 : decListPayload b with
  | error e0 =>
    rw [h0] at h
    simp only [Except.error.injEq] at h
    subst h
    exact decListPayload_not_invalidSig b e0 h0
  | ok v0 =>
    obtain ⟨payload, rest⟩ := v0
    rw [h0] at h
    simp only [] at h
    cases h1 : decScalar 8 payload with
    | error e1 =>
      rw [h1] at h
      simp only [Except.error.injEq] at h
      subst h
      exact decScalar_not_invalidSig 8 payload e1 h1
    | ok v1 =>
      obtain ⟨chain_id, p1⟩ := v1
      rw [h1] at h
      simp only [] at h
      cases h2 : decScalar 8 p1 with
      | error e2 =>
        rw [h2] at h
        simp only [Except.error.injEq] at h
        subst h
        exact decScalar_not_invalidSig 8 p1 e2 h2
      | ok v2 =>
        obtain ⟨nonce, p2⟩ := v2
        rw [h2] at h
        simp only [] at h
        cases h3 : decScalar 32 p2 with
        | error e3 =>
          rw [h3] at h
          simp only [Except.error.injEq] at h
          subst h
          exact decScalar_not_invalidSig 32 p2 e3 h3
        | ok v3 =>
          obtain ⟨mpf, p3⟩ := v3
          rw [h3] at h
          simp only [] at h
          cases h4 : decScalar 32 p3 with
          | error e4 =>
            rw [h4] at h
            simp only [Except.error.injEq] at h
            subst h
            exact decScalar_not_invalidSig 32 p3 e4 h4
          | ok v4 =>
            obtain ⟨mf, p4⟩ := v4
            rw [h4] at h
            simp only [] at h
            cases h5 : decScalar 8 p4 with
            | error e5 =>
              rw [h5] at h
              simp only [Except.error.injEq] at h
              subst h
              exact decScalar_not_invalidSig 8 p4 e5 h5
            | ok v5 =>
              obtain ⟨gl, p5⟩ := v5
              rw [h5] at h
              simp only [] at h
              cases h6 : decFixedBytes 20 p5 with
              | error e6 =>
                rw [h6] at h
                simp only [Except.error.injEq] at h
                subst h
                exact decFixedBytes_not_invalidSig 20 p5 e6 h6
              | ok v6 =>
                obtain ⟨toa, p6⟩ := v6
                rw [h6] at h
                simp only [] at h
                cases h7 : decScalar 32 p6 with
                | error e7 =>
                  rw [h7] at h
                  simp only [Except.error.injEq] at h
                  subst h
                  exact decScalar_not_invalidSig 32 p6 e7 h7
                | ok v7 =>
                  obtain ⟨val, p7⟩ := v7
                  rw [h7] at h
                  simp only [] at h
                  cases h8 : decBytes p7 with
                  | error e8 =>
                    rw [h8] at h
                    simp only [Except.error.injEq] at h
                    subst h
                    exact decBytes_not_invalidSig p7 e8 h8
                  | ok v8 =>
                    obtain ⟨inp, p8⟩ := v8
                    rw [h8] at h
                    simp only [] at h
                    cases h9 : decAccessList p8 with
                    | error e9 =>
                      rw [h9] at h
                      simp only [Except.error.injEq] at h
                      subst h
                      exact decAccessList_not_invalidSig p8 e9 h9
                    | ok v9 =>
                      obtain ⟨al, p9⟩ := v9
                      rw [h9] at h
                      simp only [] at h
                      cases h10 : decScalar 32 p9 with
                      | error e10 =>
                        rw [h10] at h
                        simp only [Except.error.injEq] at h
                        subst h
                        exact decScalar_not_invalidSig 32 p9 e10 h10
                      | ok v10 =>
                        obtain ⟨mfb, p10⟩ := v10
                        rw [h10] at h
                        simp only [] at h
                        cases h11 : decB256List p10 with
                        | error e11 =>
                          rw [h11] at h
                          simp only [Except.error.injEq] at h
                          subst h
                          exact decB256List_not_invalidSig p10 e11 h11
                        | ok v11 =>
                          obtain ⟨bh, p11⟩ := v11
                          rw [h11] at h
                          simp only [] at h
                          cases h12 : decSignatureWithYParity p11 with
                          | error e12 =>
                            rw [h12] at h
                            simp only [Except.error.injEq] at h
                            subst h
                            exact decSignatureWithYParity_not_invalidSig p11 e12 h12
                          | ok v12 =>
                            obtain ⟨sig, p12⟩ := v12
                            rw [h12] at h
                            simp only [] at h
                            split at h
                            · exact absurd h (by simp)
                            · simp only [Except.error.injEq] at h
                              subst h
                              simp [invalidSigErr]

theorem decodeSignedEip4844_structural_err (b : List Nat) (e : RlpErr)
    (h : decodeDecodableEip4844 b = .error e) :
    decodeSignedEip4844 b = .error e := by
  rw [decodeSignedEip4844, h]

theorem decodeSignedEip4844_sig_err (b : List Nat) (t : DecodableEip4844)
    (rest : List Nat) (err : SignatureError)
    (h1 : decodeDecodableEip4844 b = .ok (t, rest))
    (h2 : fakeableRecover t.signature
        (requestEip4844Hash (requestFromDecodableEip4844 t)) = .error err) :
    decodeSignedEip4844 b = .error invalidSigErr := by
  rw [decodeSignedEip4844, h1]
  simp only []
  rw [h2]
  rfl

theorem v_value_adjustment_eq (c : Nat) (h : 2 * c + 36 < 2 ^ 64) :
    v_value_adjustment c = c * 2 + 8 := by
  simp only [v_value_adjustment, wadd, wmul, wsub, w64_eq]
  have h2c : c * 2 % 2 ^ 64 = c * 2 := Nat.mod_eq_of_lt (by omega)
  rw [h2c]
  have h35 : (c * 2 + 35) % 2 ^ 64 = c * 2 + 35 := Nat.mod_eq_of_lt (by omega)
  rw [h35]
  have h27 : 27 % 2 ^ 64 = 27 := by norm_num
  rw [h27]
  rw [show c * 2 + 35 + 2 ^ 64 - 27 = (c * 2 + 8) + 2 ^ 64 from by omega]
  rw [Nat.add_mod_right]
  exact Nat.mod_eq_of_lt (by omega)

theorem wsub_eq_sub (a b : Nat) (hba : b ≤ a) (ha : a < 2 ^ 64) (hb : b < 2 ^ 64) :
    wsub a b = a - b := by
  rw [wsub, w64_eq]
  rw [Nat.mod_eq_of_lt hb]
  rw [show a + 2 ^ 64 - b = (a - b) + 2 ^ 64 from by omega]
  rw [Nat.add_mod_right]
  exact Nat.mod_eq_of_lt (by omega)

/-- The concrete EIP-155 request of the repository's `dummy_request` test vector. -/
def c2Request : RequestEip155 :=
  { nonce := 1, gas_price := 2, gas_limit := 3,
    kind := .call [0xc0, 0x14, 0xba, 0x5e, 0xc0, 0x14, 0xba, 0x5e, 0xc0, 0x14,
      0xba, 0x5e, 0xc0, 0x14, 0xba, 0x5e, 0xc0, 0x14, 0xba, 0x5e],
    value := 4, input := [0x12, 0x34], chain_id := 1 }

set_option maxRecDepth 1000000 in
/-- C2: the unsigned EIP-155 request encoding writes the seven fields followed by
the two explicit trailing zero items, and on the concrete request
{nonce=1, gasPrice=2, gasLimit=3, to=0xc014…ba5e, value=4, input=0x1234, chainId=1}
produces exactly the byte string `df01…8080` whose keccak256 is `df5aea…be6743`. -/
theorem claim_C2_eip155_request_vector :
    encodeRequestEip155 c2Request =
      [0xdf, 0x01, 0x02, 0x03, 0x94, 0xc0, 0x14, 0xba, 0x5e, 0xc0, 0x14, 0xba, 0x5e,
       0xc0, 0x14, 0xba, 0x5e, 0xc0, 0x14, 0xba, 0x5e, 0xc0, 0x14, 0xba, 0x5e, 0x04,
       0x82, 0x12, 0x34, 0x01, 0x80, 0x80] ∧
    requestEip155Hash c2Request =
      [0xdf, 0x5a, 0xea, 0x48, 0x8a, 0xf4, 0x14, 0xbd, 0x51, 0x77, 0x42, 0xf5, 0x99,
       0xbc, 0xba, 0x94, 0xba, 0x80, 0x1a, 0x58, 0x1c, 0xf7, 0x1d, 0x86, 0xa8, 0x57,
       0x77, 0xce, 0xcd, 0xbe, 0x67, 0x43] := by
  constructor
  · decide
  · decide

/-- C3: for every EIP-155 request and key (with the chain-id arithmetic staying in
`u64` range), the signed transaction's `v` is `chainId*2 + 35 + recoveryId` where
the raw recovery id is 0 or 1; the implementation reaches this by adding the
adjustment `chain_id*2 + 35 − 27` to the base `v` that already contains the
legacy base 27. -/
theorem claim_C3_sign_v_formula (tx : RequestEip155) (key : Nat)
    (h : 2 * tx.chain_id + 36 < 2 ^ 64) :
    (signRequestEip155 tx key).signature.v =
      tx.chain_id * 2 + 35 + rawRecoveryId (requestEip155Hash tx) key ∧
    (rawRecoveryId (requestEip155Hash tx) key = 0 ∨
      rawRecoveryId (requestEip155Hash tx) key = 1) ∧
    v_value_adjustment tx.chain_id = tx.chain_id * 2 + 35 - 27 := by
  refine ⟨signRequestEip155_v tx key h, ?_, ?_⟩
  · have : rawRecoveryId (requestEip155Hash tx) key < 2 := Nat.mod_lt _ (by norm_num)
    omega
  · rw [v_value_adjustment_eq tx.chain_id h]
    omega

set_option maxRecDepth 1000000 in
theorem claim_C3_sign_v_formula_witness :
    2 * 1 + 36 < 2 ^ 64 ∧
      ((signRequestEip155 c2Request 5).signature.v =
        1 * 2 + 35 + rawRecoveryId (requestEip155Hash c2Request) 5 ∧
      (rawRecoveryId (requestEip155Hash c2Request) 5 = 0 ∨
        rawRecoveryId (requestEip155Hash c2Request) 5 = 1) ∧
      v_value_adjustment 1 = 1 * 2 + 35 - 27) :=
  ⟨by norm_num, claim_C3_sign_v_formula c2Request 5 (by decide)⟩

/-- C4: signing an EIP-155 request with chain id `c` and querying `chain_id` on
the result returns `c` (chain-id arithmetic in `u64` range); the chain id is
derived from `v` as `(v − 35) / 2`, not stored. -/
theorem claim_C4_chain_id_consistency (tx : RequestEip155) (key : Nat)
    (h : 2 * tx.chain_id + 36 < 2 ^ 64) :
    signedEip155ChainId (signRequestEip155 tx key) = tx.chain_id ∧
    (∀ t : SignedEip155, 35 ≤ t.signature.v → t.signature.v < 2 ^ 64 →
      signedEip155ChainId t = (t.signature.v - 35) / 2) := by
  refine ⟨signedEip155ChainId_signRequest tx key h, ?_⟩
  intro t h35 hlt
  rw [signedEip155ChainId, wsub_eq_sub _ _ h35 hlt (by norm_num)]

theorem claim_C4_chain_id_consistency_witness :
    2 * 1 + 36 < 2 ^ 64 ∧
      (signedEip155ChainId (signRequestEip155 c2Request 5) = 1 ∧
      (∀ t : SignedEip155, 35 ≤ t.signature.v → t.signature.v < 2 ^ 64 →
        signedEip155ChainId t = (t.signature.v - 35) / 2)) :=
  ⟨by norm_num, claim_C4_chain_id_consistency c2Request 5 (by decide)⟩

/-- The concrete EIP-4844 transaction of the repository's `dummy_transaction`
test vector (`ethereumjs` cross-vector). -/
def c5Transaction : SignedEip4844 :=
  { chain_id := 0x28757b3, nonce := 0, max_priority_fee_per_gas := 0x12a05f200,
    max_fee_per_gas := 0x12a05f200, gas_limit := 0x33450,
    to_address := [0xff, 0xb3, 0x8a, 0x7a, 0x99, 0xe3, 0xe2, 0x33, 0x5b, 0xe8,
      0x3f, 0xc7, 0x4b, 0x7f, 0xaa, 0x19, 0xd5, 0x53, 0x12, 0x43],
    value := 0xbc614e, input := [], access_list := [],
    max_fee_per_blob_gas := 0xb2d05e00,
    blob_hashes := [[0x01, 0xb0, 0xa4, 0xcd, 0xd5, 0xf5, 0x55, 0x89, 0xf5, 0xc5,
      0xb4, 0xd4, 0x6c, 0x76, 0x70, 0x4b, 0xb6, 0xce, 0x95, 0xc0, 0xa8, 0xc0,
      0x9f, 0x77, 0xf1, 0x97, 0xa5, 0x78, 0x08, 0xdd, 0xed, 0x28]],
    signature :=
      { signature :=
          { r := 0x8a83833ec07806485a4ded33f24f5cea4b8d4d24dc8f357e6d446bcdae5e58a7,
            s := 0x68a2ba422a50cf84c0b5fcbda32ee142196910c97198ffd99035d920c2b557f8,
            y_parity := false },
        caller := [], is_fake := false },
    hash := none }

set_option maxRecDepth 1000000 in
/-- C5: the EIP-4844 content hash is keccak256 of the byte 0x03 prepended to the
RLP field list, and the concrete `ethereumjs` vector reproduces the expected
payload `f89b8402…557f8` and hash `e5e02be0…936d173e`. -/
theorem claim_C5_eip4844_vector :
    encodeSignedEip4844 c5Transaction =
      [0xf8, 0x9b, 0x84, 0x02, 0x87, 0x57, 0xb3, 0x80, 0x85, 0x01, 0x2a, 0x05, 0xf2,
       0x00, 0x85, 0x01, 0x2a, 0x05, 0xf2, 0x00, 0x83, 0x03, 0x34, 0x50, 0x94, 0xff,
       0xb3, 0x8a, 0x7a, 0x99, 0xe3, 0xe2, 0x33, 0x5b, 0xe8, 0x3f, 0xc7, 0x4b, 0x7f,
       0xaa, 0x19, 0xd5, 0x53, 0x12, 0x43, 0x83, 0xbc, 0x61, 0x4e, 0x80, 0xc0, 0x84,
       0xb2, 0xd0, 0x5e, 0x00, 0xe1, 0xa0, 0x01, 0xb0, 0xa4, 0xcd, 0xd5, 0xf5, 0x55,
       0x89, 0xf5, 0xc5, 0xb4, 0xd4, 0x6c, 0x76, 0x70, 0x4b, 0xb6, 0xce, 0x95, 0xc0,
       0xa8, 0xc0, 0x9f, 0x77, 0xf1, 0x97, 0xa5, 0x78, 0x08, 0xdd, 0xed, 0x28, 0x80,
       0xa0, 0x8a, 0x83, 0x83, 0x3e, 0xc0, 0x78, 0x06, 0x48, 0x5a, 0x4d, 0xed, 0x33,
       0xf2, 0x4f, 0x5c, 0xea, 0x4b, 0x8d, 0x4d, 0x24, 0xdc, 0x8f, 0x35, 0x7e, 0x6d,
       0x44, 0x6b, 0xcd, 0xae, 0x5e, 0x58, 0xa7, 0xa0, 0x68, 0xa2, 0xba, 0x42, 0x2a,
       0x50, 0xcf, 0x84, 0xc0, 0xb5, 0xfc, 0xbd, 0xa3, 0x2e, 0xe1, 0x42, 0x19, 0x69,
       0x10, 0xc9, 0x71, 0x98, 0xff, 0xd9, 0x90, 0x35, 0xd9, 0x20, 0xc2, 0xb5, 0x57,
       0xf8] ∧
    (signedEip4844HashGet c5Transaction).1 =
      keccak256 (envelop_bytes 3 (encodeSignedEip4844 c5Transaction)) ∧
    (signedEip4844HashGet c5Transaction).1 =
      [0xe5, 0xe0, 0x2b, 0xe0, 0x66, 0x7b, 0x6d, 0x31, 0x89, 0x5d, 0x1b, 0x5a, 0x8b,
       0x91, 0x6a, 0x67, 0x61, 0xcb, 0xc9, 0x86, 0x52, 0x25, 0xc6, 0x14, 0x4a, 0x3e,
       0x2c, 0x50, 0x93, 0x6d, 0x17, 0x3e] := by
  refine ⟨by decide, rfl, by decide⟩

/-- C6: extracting the caller from a fake-signed EIP-155 transaction returns
exactly the embedded address, for every request (hence independent of its chain
id) and every well-formed address; the fake path never consults the chain-id
offset added to `v`. -/
theorem claim_C6_fake_sign_inverse (tx : RequestEip155) (address : List Nat)
    (h : WfAddr address) :
    signedEip155Recover (fakeSignRequestEip155 tx address) = .ok address :=
  fakeSign_recover tx address h

theorem claim_C6_fake_sign_inverse_witness :
    WfAddr (List.replicate 20 0xab) ∧
      signedEip155Recover (fakeSignRequestEip155 c2Request (List.replicate 20 0xab)) =
        .ok (List.replicate 20 0xab) :=
  ⟨⟨by decide, by decide⟩,
    claim_C6_fake_sign_inverse c2Request (List.replicate 20 0xab) ⟨by decide, by decide⟩⟩

/-- C7 counterexample: two signed EIP-155 transactions that differ in the
non-cache field `is_fake` nevertheless compare equal, refuting "two signed
transactions differing in any non-cache field compare unequal". -/
theorem claim_C7_counterexample :
    eqSignedEip155
      { nonce := 1, gas_price := 2, gas_limit := 3, kind := .create, value := 4,
        input := [], signature := { r := 1, s := 1, v := 38 }, hash := none,
        is_fake := true }
      { nonce := 1, gas_price := 2, gas_limit := 3, kind := .create, value := 4,
        input := [], signature := { r := 1, s := 1, v := 38 }, hash := none,
        is_fake := false } = true ∧
    (true : Bool) ≠ false := by
  constructor
  · decide
  · decide

/-- C7 (amended): equality of signed transactions compares every field except
the hash cache — and, for the EIP-155 form, except the `is_fake` marker as
well; transactions agreeing on the compared fields are equal even if only one
has materialized its cache, and differing in any compared field makes them
unequal. -/
theorem claim_C7_equality (a b : SignedEip155) (c d : SignedEip4844) :
    (eqSignedEip155 a b = true ↔
      (a.nonce = b.nonce ∧ a.gas_price = b.gas_price ∧ a.gas_limit = b.gas_limit ∧
        a.kind = b.kind ∧ a.value = b.value ∧ a.input = b.input ∧
        a.signature = b.signature)) ∧
    (eqSignedEip4844 c d = true ↔
      (c.chain_id = d.chain_id ∧ c.nonce = d.nonce ∧
        c.max_priority_fee_per_gas = d.max_priority_fee_per_gas ∧
        c.max_fee_per_gas = d.max_fee_per_gas ∧
        c.max_fee_per_blob_gas = d.max_fee_per_blob_gas ∧
        c.gas_limit = d.gas_limit ∧ c.to_address = d.to_address ∧
        c.value = d.value ∧ c.input = d.input ∧ c.access_list = d.access_list ∧
        c.blob_hashes = d.blob_hashes ∧ c.signature = d.signature)) :=
  ⟨eqSignedEip155_iff a b, eqSignedEip4844_iff c d⟩

/-- C10: `chain_id` computes `(v − 35) / 2` with an unguarded `u64` subtraction:
under debug (checked) semantics it is defined exactly when `v ≥ 35` and
underflows (panics) for `v < 35`, e.g. the legacy `v = 27`; the unguarded value
also feeds the unsigned-request reconstruction used for signature recovery. -/
theorem claim_C10_chain_id_underflow :
    (∀ t : SignedEip155, 35 ≤ t.signature.v →
      signedEip155ChainIdChecked t = some ((t.signature.v - 35) / 2)) ∧
    (∀ t : SignedEip155, t.signature.v < 35 → signedEip155ChainIdChecked t = none) ∧
    (∀ t : SignedEip155, (requestFromSignedEip155 t).chain_id = signedEip155ChainId t) := by
  refine ⟨?_, ?_, fun t => rfl⟩
  · intro t h
    rw [signedEip155ChainIdChecked, csub, if_pos h]
    rfl
  · intro t h
    rw [signedEip155ChainIdChecked, csub, if_neg (by omega)]
    rfl

theorem claim_C10_chain_id_underflow_witness :
    (35 ≤ 38 ∧ signedEip155ChainIdChecked
      { nonce := 1, gas_price := 2, gas_limit := 3, kind := .create, value := 4,
        input := [], signature := { r := 1, s := 1, v := 38 }, hash := none,
        is_fake := false } = some ((38 - 35) / 2)) ∧
    (27 < 35 ∧ signedEip155ChainIdChecked
      { nonce := 1, gas_price := 2, gas_limit := 3, kind := .create, value := 4,
        input := [], signature := { r := 1, s := 1, v := 27 }, hash := none,
        is_fake := false } = none) := by
  constructor
  · exact ⟨by norm_num, claim_C10_chain_id_underflow.1 _ (by norm_num)⟩
  · exact ⟨by norm_num, claim_C10_chain_id_underflow.2.1 _ (by norm_num)⟩

/-- C1: for every well-formed signed transaction of each supported kind (the
EIP-155 signed form and, with its signature consistent with recovery, the
EIP-4844 signed form), decoding the encoder's output succeeds, consumes the
whole buffer, and yields a transaction equal to the original under the
`PartialEq` that excludes the hash cache. -/
theorem claim_C1_codec_roundtrip (t1 : SignedEip155) (t2 : SignedEip4844)
    (hw1 : WfSignedEip155 t1) (hw2 : WfSignedEip4844 t2)
    (hsig : fakeableRecover (decodableFromSignedEip4844 t2).signature
        (requestEip4844Hash (requestFromDecodableEip4844 (decodableFromSignedEip4844 t2))) =
      .ok t2.signature) :
    (decodeSignedEip155 (encodeSignedEip155 t1) =
        .ok ({ t1 with hash := none, is_fake := false }, []) ∧
      eqSignedEip155 { t1 with hash := none, is_fake := false } t1 = true) ∧
    (decodeSignedEip4844 (encodeSignedEip4844 t2) = .ok ({ t2 with hash := none }, []) ∧
      eqSignedEip4844 { t2 with hash := none } t2 = true) := by
  refine ⟨⟨decodeSignedEip155_encode t1 hw1, ?_⟩,
    ⟨decodeSignedEip4844_encode t2 hw2 hsig, ?_⟩⟩
  · rw [eqSignedEip155_iff]
    simp
  · rw [eqSignedEip4844_iff]
    simp

/-- A concrete well-formed signed EIP-155 transaction for evaluating the codec. -/
def c1WitnessEip155 : SignedEip155 :=
  { nonce := 1, gas_price := 2, gas_limit := 3, kind := .create, value := 4,
    input := [0x12, 0x34], signature := { r := 1, s := 1, v := 38 },
    hash := some [0xaa], is_fake := true }

/-- A concrete well-formed signed EIP-4844 transaction whose `Fakeable`
signature is consistent with recovery at its own request hash. -/
def c1WitnessEip4844 : SignedEip4844 :=
  { chain_id := 1, nonce := 0, max_priority_fee_per_gas := 2, max_fee_per_gas := 3,
    gas_limit := 5, to_address := List.replicate 20 0x11, value := 6, input := [],
    access_list := [], max_fee_per_blob_gas := 7, blob_hashes := [],
    signature :=
      { signature := { r := 1, s := 1, y_parity := false },
        caller := [108, 190, 120, 157, 224, 156, 89, 51, 101, 76, 14, 2, 35, 54,
          130, 120, 248, 172, 16, 18],
        is_fake := false },
    hash := none }

set_option maxRecDepth 1000000 in
theorem claim_C1_codec_roundtrip_witness :
    (decodeSignedEip155 (encodeSignedEip155 c1WitnessEip155) =
        .ok ({ c1WitnessEip155 with hash := none, is_fake := false }, []) ∧
      eqSignedEip155 { c1WitnessEip155 with hash := none, is_fake := false }
        c1WitnessEip155 = true) ∧
    (decodeSignedEip4844 (encodeSignedEip4844 c1WitnessEip4844) =
        .ok ({ c1WitnessEip4844 with hash := none }, []) ∧
      eqSignedEip4844 { c1WitnessEip4844 with hash := none } c1WitnessEip4844 = true) :=
  claim_C1_codec_roundtrip c1WitnessEip155 c1WitnessEip4844
    ⟨by decide, by decide, by decide, trivial, by decide, by decide, by decide,
      by decide, by decide, by decide⟩
    ⟨by decide, by decide, by decide, by decide, by decide, ⟨by decide, by decide⟩,
      by decide, by decide, fun x hx => absurd hx (List.not_mem_nil x), by decide,
      fun x hx => absurd hx (List.not_mem_nil x), by decide, by decide,
      by decide⟩
    (by decide)

/-- C8: querying the hash of a signed transaction (either kind, with a cache
that is unset or canonically set) returns keccak256 of the canonical
transmitted bytes, populates the cache with exactly that value on first
query, and a repeated query returns the same value without modifying the
state again. -/
theorem claim_C8_hash_stability (t1 : SignedEip155) (t2 : SignedEip4844)
    (hc1 : t1.hash = none ∨ t1.hash = some (keccak256 (encodeSignedEip155 t1)))
    (hc2 : t2.hash = none ∨
      t2.hash = some (keccak256 (envelop_bytes 3 (encodeSignedEip4844 t2)))) :
    ((signedEip155HashGet t1).1 = keccak256 (encodeSignedEip155 t1) ∧
      (signedEip155HashGet t1).2.hash = some ((signedEip155HashGet t1).1) ∧
      signedEip155HashGet ((signedEip155HashGet t1).2) =
        ((signedEip155HashGet t1).1, (signedEip155HashGet t1).2)) ∧
    ((signedEip4844HashGet t2).1 = keccak256 (envelop_bytes 3 (encodeSignedEip4844 t2)) ∧
      (signedEip4844HashGet t2).2.hash = some ((signedEip4844HashGet t2).1) ∧
      signedEip4844HashGet ((signedEip4844HashGet t2).2) =
        ((signedEip4844HashGet t2).1, (signedEip4844HashGet t2).2)) :=
  ⟨signedEip155HashGet_spec t1 hc1, signedEip4844HashGet_spec t2 hc2⟩

theorem claim_C8_hash_stability_witness :
    ((signedEip155HashGet { c1WitnessEip155 with hash := none }).1 =
        keccak256 (encodeSignedEip155 { c1WitnessEip155 with hash := none }) ∧
      (signedEip155HashGet { c1WitnessEip155 with hash := none }).2.hash =
        some ((signedEip155HashGet { c1WitnessEip155 with hash := none }).1) ∧
      signedEip155HashGet ((signedEip155HashGet { c1WitnessEip155 with hash := none }).2) =
        ((signedEip155HashGet { c1WitnessEip155 with hash := none }).1,
          (signedEip155HashGet { c1WitnessEip155 with hash := none }).2)) ∧
    ((signedEip4844HashGet c1WitnessEip4844).1 =
        keccak256 (envelop_bytes 3 (encodeSignedEip4844 c1WitnessEip4844)) ∧
      (signedEip4844HashGet c1WitnessEip4844).2.hash =
        some ((signedEip4844HashGet c1WitnessEip4844).1) ∧
      signedEip4844HashGet ((signedEip4844HashGet c1WitnessEip4844).2) =
        ((signedEip4844HashGet c1WitnessEip4844).1,
          (signedEip4844HashGet c1WitnessEip4844).2)) :=
  claim_C8_hash_stability { c1WitnessEip155 with hash := none } c1WitnessEip4844
    (Or.inl rfl) (Or.inl rfl)

/-- C9: decoding EIP-4844 wire bytes propagates structural failures as decode
errors that are never the reserved `Custom "Invalid Signature"` error, while a
structurally valid field list whose signature fails recovery produces exactly
that distinct error — so the two kinds are distinguishable by callers. -/
theorem claim_C9_error_taxonomy (b : List Nat) :
    (∀ e, decodeDecodableEip4844 b = .error e →
      decodeSignedEip4844 b = .error e ∧ e ≠ invalidSigErr) ∧
    (∀ (t : DecodableEip4844) (rest : List Nat) (err : SignatureError),
      decodeDecodableEip4844 b = .ok (t, rest) →
      fakeableRecover t.signature
          (requestEip4844Hash (requestFromDecodableEip4844 t)) = .error err →
      decodeSignedEip4844 b = .error invalidSigErr) := by
  constructor
  · intro e he
    exact ⟨decodeSignedEip4844_structural_err b e he,
      decodeDecodableEip4844_not_invalidSig b e he⟩
  · intro t rest err h1 h2
    exact decodeSignedEip4844_sig_err b t rest err h1 h2

/-- The EIP-4844 transaction of the `ethereumjs` vector with its signature `r`
zeroed: structurally valid wire bytes whose signature fails recovery. -/
def c9BadSigned : SignedEip4844 :=
  { c5Transaction with
    signature :=
      { signature := { r := 0, s := 1, y_parity := false },
        caller := [], is_fake := false } }

/-- The intermediate record that structural decoding yields for `c9BadSigned`. -/
def c9BadDecodable : DecodableEip4844 :=
  decodableFromSignedEip4844 c9BadSigned

set_option maxRecDepth 1000000 in
theorem claim_C9_error_taxonomy_witness :
    (decodeSignedEip4844 [] = .error RlpErr.inputTooShort ∧
      RlpErr.inputTooShort ≠ invalidSigErr) ∧
    decodeSignedEip4844 (encodeSignedEip4844 c9BadSigned) = .error invalidSigErr := by
  constructor
  · exact (claim_C9_error_taxonomy []).1 RlpErr.inputTooShort (by decide)
  · exact (claim_C9_error_taxonomy (encodeSignedEip4844 c9BadSigned)).2 c9BadDecodable []
      SignatureError.invalidSignature (by decide) (by decide)

end Edr
